import Mathlib

/-!
# Verification of the rook engine and game orchestrator

Shallow embedding of the `rook` repository's rules engine
(`packages/rook-engine/src`: cards, deck, bidding, trick, scoring) and of the
per-room game orchestrator (`apps/server/src/game.ts`), together with theorems
settling the specification claims about them.

Conventions of the embedding:
* TypeScript `number` values that are always non-negative integers become `Nat`;
  scores, which may go negative, become `Int`.
* Thrown exceptions and `{ok:false, error}` results both become
  `Except String _` values carrying the source's error message.
* Fixed-length arrays indexed by player (4) or team (2) become functions out of
  `Fin 4` / `Fin 2`.
-/

set_option maxRecDepth 10000

namespace Rook

/-! ## Cards (`packages/rook-engine/src/cards.ts`) -/

inductive Color where
  | red | yellow | green | black
deriving DecidableEq, Repr

/-- A card is either a suited card (rank 1..14, some ranks removed by deck
mode) or the single Rook card. -/
inductive Card where
  | suit (color : Color) (rank : Nat)
  | rook
deriving DecidableEq, Repr

/-- Uppercase color name, as produced by `color.toUpperCase()` in `cardId`. -/
def colorName : Color → String
  | .red => "RED"
  | .yellow => "YELLOW"
  | .green => "GREEN"
  | .black => "BLACK"

/-- `cardId`: `"ROOK"` for the rook, `"<COLOR>_<rank>"` for suited cards. -/
def cardId : Card → String
  | .rook => "ROOK"
  | .suit c r => colorName c ++ "_" ++ toString r

/-- `isPointCard`: the rook and ranks 1, 5, 10, 14 carry points. -/
def isPointCard : Card → Bool
  | .rook => true
  | .suit _ r => decide (r = 1) || decide (r = 5) || decide (r = 10) || decide (r = 14)

/-- `cardPoints`: rook 20, rank 1 is 15, rank 5 is 5, ranks 10 and 14 are 10,
everything else 0. -/
def cardPoints : Card → Nat
  | .rook => 20
  | .suit _ r =>
    if r = 1 then 15
    else if r = 5 then 5
    else if r = 10 then 10
    else if r = 14 then 10
    else 0

/-! ## Deck construction (`packages/rook-engine/src/deck.ts`) -/

inductive DeckMode where
  | full | fast
deriving DecidableEq, Repr

def COLORS : List Color := [.red, .yellow, .green, .black]

/-- `buildDeck`: ranks 1..14 per color (2/3/4 skipped in fast mode), all four
colors, plus the rook appended at the end. -/
def buildDeck (deckMode : DeckMode) : List Card :=
  let ranks := ((List.range 14).map (fun r => r + 1)).filter
    (fun r => !(decide (deckMode = DeckMode.fast) && (decide (r = 2) || decide (r = 3) || decide (r = 4))))
  let suited := COLORS.flatMap (fun c => ranks.map (fun r => Card.suit c r))
  suited ++ [Card.rook]

/-! ## Scoring (`packages/rook-engine/src/scoring.ts`)

Teams are indexed by `Fin 2` (`0` = T1, `1` = T2). Point totals are `Int`
because a set bidding team scores `-bidAmount`. -/

/-- `sumPoints`: fold of `cardPoints` over a pile of cards. -/
def sumPoints (cards : List Card) : Nat :=
  cards.foldl (fun total card => total + cardPoints card) 0

structure HandScore where
  points : Fin 2 → Int
  scores : Fin 2 → Int

/-- `scoreHand`: per-team captured points, then the fixed 20-point last-trick
bonus and the kitty's points are added to the last-trick team; the bidding
team's score is replaced by `-bidAmount` exactly when its points fall short of
the bid. -/
def scoreHand (capturedByTeam : Fin 2 → List Card) (lastTrickTeam : Fin 2)
    (kittyCards : List Card) (biddingTeam : Fin 2) (bidAmount : Nat) : HandScore :=
  let base : Fin 2 → Int := fun t => (sumPoints (capturedByTeam t) : Int)
  let points : Fin 2 → Int :=
    Function.update base lastTrickTeam
      (base lastTrickTeam + 20 + (sumPoints kittyCards : Int))
  let scores : Fin 2 → Int :=
    if points biddingTeam < (bidAmount : Int) then
      Function.update points biddingTeam (-(bidAmount : Int))
    else points
  { points := points, scores := scores }

/-! ## Bidding (`packages/rook-engine/src/bidding.ts`) -/

abbrev PlayerId := Fin 4
abbrev TeamId := Fin 2

inductive BiddingAction where
  | bid (player : PlayerId) (amount : Nat)
  | pass (player : PlayerId)
  | passPartner (player : PlayerId)
deriving DecidableEq, Repr

def BiddingAction.player : BiddingAction → PlayerId
  | .bid p _ => p
  | .pass p => p
  | .passPartner p => p

structure Bid where
  player : PlayerId
  amount : Nat
deriving DecidableEq, Repr

structure BiddingState where
  currentPlayer : PlayerId
  minBid : Nat
  step : Nat
  highBid : Option Bid
  passed : Fin 4 → Bool
  passPartnerUsed : Fin 2 → Bool
  history : List BiddingAction

def DEFAULT_MIN_BID : Nat := 100
def DEFAULT_MAX_BID : Nat := 200
def DEFAULT_BID_STEP : Nat := 5

/-- `teamOf(player) = player % 2`. -/
def teamOf (player : PlayerId) : TeamId := ⟨player.val % 2, Nat.mod_lt _ (by omega)⟩

/-- `partnerOf(player) = (player + 2) % 4`; `Fin 4` addition wraps mod 4. -/
def partnerOf (player : PlayerId) : PlayerId := player + 2

def createBiddingState (startingPlayer : PlayerId := 0)
    (minBid : Nat := DEFAULT_MIN_BID) (step : Nat := DEFAULT_BID_STEP) : BiddingState :=
  { currentPlayer := startingPlayer
    minBid := minBid
    step := step
    highBid := none
    passed := fun _ => false
    passPartnerUsed := fun _ => false
    history := [] }

def countPassed (passed : Fin 4 → Bool) : Nat :=
  (List.finRange 4).countP (fun player => passed player)

def isBiddingComplete (state : BiddingState) : Bool :=
  decide (3 ≤ countPassed state.passed)

def getWinningBid (state : BiddingState) : Option Bid :=
  if isBiddingComplete state then state.highBid else none

/-- `nextActivePlayer`: the source loops `i = 1..4` over `(from + i) % 4` and
returns the first non-passed candidate, falling back to `from` itself.  The
candidate at `i = 4` is `from` again, so the loop is unrolled into the three
proper candidates with `from` as the final fallback. -/
def nextActivePlayer (passed : Fin 4 → Bool) (fromP : PlayerId) : PlayerId :=
  if !passed (fromP + 1) then fromP + 1
  else if !passed (fromP + 2) then fromP + 2
  else if !passed (fromP + 3) then fromP + 3
  else fromP

def applyBid (state : BiddingState) (player : PlayerId) (amount : Nat) :
    Except String BiddingState :=
  if amount < state.minBid then
    .error ("Bid must be at least " ++ toString state.minBid ++ ".")
  else if amount > DEFAULT_MAX_BID then
    .error ("Bid cannot exceed " ++ toString DEFAULT_MAX_BID ++ ".")
  else if amount % state.step ≠ 0 then
    .error ("Bid must be in increments of " ++ toString state.step ++ ".")
  else if state.highBid.any (fun hb => decide (amount ≤ hb.amount)) then
    .error "Bid must exceed the current high bid."
  else
    .ok { state with
      highBid := some { player := player, amount := amount }
      currentPlayer := nextActivePlayer state.passed player
      history := state.history ++ [.bid player amount] }

def applyPass (state : BiddingState) (player : PlayerId) : BiddingState :=
  let passed := Function.update state.passed player true
  { state with
    passed := passed
    currentPlayer := nextActivePlayer passed player
    history := state.history ++ [.pass player] }

def applyPassPartner (state : BiddingState) (player : PlayerId) :
    Except String BiddingState :=
  match state.highBid with
  | none => .error "Cannot pass partner before any bid is made."
  | some hb =>
    if hb.player ≠ partnerOf player then
      .error "PassPartner is only allowed when your partner is the high bidder."
    else if state.passPartnerUsed (teamOf player) then
      .error "PassPartner has already been used by this team."
    else
      .ok { state with
        passPartnerUsed := Function.update state.passPartnerUsed (teamOf player) true
        currentPlayer := nextActivePlayer state.passed player
        history := state.history ++ [.passPartner player] }

/-- `applyBiddingAction`: the shared guards (bidding not complete, actor is the
current player, actor has not passed) followed by the per-action handler. -/
def applyBiddingAction (state : BiddingState) (action : BiddingAction) :
    Except String BiddingState :=
  if isBiddingComplete state then
    .error "Bidding is complete. No further actions allowed."
  else if action.player ≠ state.currentPlayer then
    .error "Action must be taken by the current player."
  else if state.passed action.player then
    .error "Passed players cannot act."
  else
    match action with
    | .bid player amount => applyBid state player amount
    | .pass player => .ok (applyPass state player)
    | .passPartner player => applyPassPartner state player

/-! ## Trick engine (`packages/rook-engine/src/trick.ts`) -/

inductive RookRankMode where
  | rookHigh | rookLow
deriving DecidableEq, Repr

abbrev TrumpColor := Color

/-- `getLegalPlays`: with no lead color every card is legal; otherwise the
suited cards of the lead color are legal if any exist, and the whole hand
otherwise.  Note the lead-suit filter requires `card.kind === 'suit'`, so the
rook is never part of `leadSuitCards`.  The trump color and rook rank mode
parameters are accepted but unused, as in the source. -/
def getLegalPlays (hand : List Card) (trickLeadColor : Option TrumpColor)
    (_trumpColor : TrumpColor) (_rookRankMode : RookRankMode) : List String :=
  match trickLeadColor with
  | none => hand.map cardId
  | some lead =>
    let leadSuitCards := hand.filter (fun card =>
      match card with
      | Card.suit c _ => decide (c = lead)
      | Card.rook => false)
    if leadSuitCards.length > 0 then leadSuitCards.map cardId
    else hand.map cardId

/-- `rankValue`: rank 1 counts as 15; the rook has no rank value. -/
def rankValue : Card → Nat
  | .rook => 0
  | .suit _ r => if r = 1 then 15 else r

@[ext]
structure CardScore where
  major : Nat
  tier : Nat
  rank : Nat
deriving DecidableEq, Repr

/-- `scoreCard`: rook is (2, 2 or 0 by rook rank mode, 0); trump-suit cards are
(2, 1, rankValue); lead-suit cards are (1, 0, rankValue); everything else is
(0, 0, 0). -/
def scoreCard (card : Card) (leadColor : Option TrumpColor) (trumpColor : TrumpColor)
    (rookRankMode : RookRankMode) : CardScore :=
  match card with
  | .rook =>
    { major := 2
      tier := if rookRankMode = RookRankMode.rookHigh then 2 else 0
      rank := 0 }
  | .suit c _ =>
    if c = trumpColor then
      { major := 2, tier := 1, rank := rankValue card }
    else if leadColor.any (fun lead => decide (c = lead)) then
      { major := 1, tier := 0, rank := rankValue card }
    else
      { major := 0, tier := 0, rank := 0 }

/-- The replacement condition of `determineTrickWinner`'s loop: `score` is
lexicographically strictly greater than the incumbent `best`. -/
def beats (score best : CardScore) : Bool :=
  decide (best.major < score.major)
    || (decide (score.major = best.major) && decide (best.tier < score.tier))
    || (decide (score.major = best.major) && decide (score.tier = best.tier)
        && decide (best.rank < score.rank))

/-- The `for` loop of `determineTrickWinner` as structural recursion: `i` is
the index of the head card, `bestIndex`/`bestScore` the incumbent. -/
def winnerAux (leadColor : Option TrumpColor) (trumpColor : TrumpColor)
    (rookRankMode : RookRankMode) :
    List Card → Nat → Nat → CardScore → Nat × CardScore
  | [], _, bestIndex, bestScore => (bestIndex, bestScore)
  | card :: rest, i, bestIndex, bestScore =>
    if beats (scoreCard card leadColor trumpColor rookRankMode) bestScore then
      winnerAux leadColor trumpColor rookRankMode rest (i + 1) i
        (scoreCard card leadColor trumpColor rookRankMode)
    else
      winnerAux leadColor trumpColor rookRankMode rest (i + 1) bestIndex bestScore

/-- `determineTrickWinner`: `-1` on an empty trick, otherwise the index of the
first card whose score tuple is not strictly beaten by any later card. -/
def determineTrickWinner (trickCardsInOrder : List Card) (leadColor : Option TrumpColor)
    (trumpColor : TrumpColor) (rookRankMode : RookRankMode) : Int :=
  match trickCardsInOrder with
  | [] => -1
  | first :: rest =>
    ((winnerAux leadColor trumpColor rookRankMode rest 1 0
        (scoreCard first leadColor trumpColor rookRankMode)).1 : Int)

/-- Score of the `j`-th card of a trick, used to state the winner theorem. -/
def trickScore (trickCardsInOrder : List Card) (leadColor : Option TrumpColor)
    (trumpColor : TrumpColor) (rookRankMode : RookRankMode) (j : Nat) : CardScore :=
  scoreCard (trickCardsInOrder.getD j Card.rook) leadColor trumpColor rookRankMode

/-! ## Bidding reachability and specification predicates -/

/-- Bidding states reachable from a start state by successful
`applyBiddingAction` steps. -/
inductive BReachable : BiddingState → BiddingState → Prop where
  | refl (s : BiddingState) : BReachable s s
  | step {s t u : BiddingState} {a : BiddingAction} :
      BReachable s t → applyBiddingAction t a = .ok u → BReachable s u

/-- Specification predicate (the claim's words): `np` is the first non-passed
player after `p` in wrapping seat order, or `p` itself if all others passed. -/
def nextActivePlayerSpec (passed : Fin 4 → Bool) (p np : PlayerId) : Prop :=
  (passed (p + 1) = false ∧ np = p + 1)
  ∨ (passed (p + 1) = true ∧ passed (p + 2) = false ∧ np = p + 2)
  ∨ (passed (p + 1) = true ∧ passed (p + 2) = true ∧ passed (p + 3) = false ∧ np = p + 3)
  ∨ (passed (p + 1) = true ∧ passed (p + 2) = true ∧ passed (p + 3) = true ∧ np = p)

/-- A fresh default bidding auction followed by one opening bid of 100 by
player 0 (concrete state used by witnesses). -/
def bid0State : BiddingState := createBiddingState 0 100 5

def bid0After : BiddingState :=
  ((applyBiddingAction bid0State (.bid 0 100)).toOption).getD bid0State

/-- Three consecutive passes from a fresh default auction. -/
def threePassResult : Except String BiddingState :=
  (applyBiddingAction (createBiddingState 0 100 5) (.pass 0)).bind
    (fun s => (applyBiddingAction s (.pass 1)).bind
      (fun t => applyBiddingAction t (.pass 2)))

/-! ## Game orchestrator (`apps/server/src/game.ts`)

The per-room `GameStore` methods are embedded as pure transition functions
`GameState → … → Except String GameState`; the store's single mutable cell
(`game.state = nextState`, executed only on the success path of each method)
is `storeAfter` below.  `Date.now()` becomes an explicit `now : Nat` argument.
The source stores a full `GameState` in the single-slot undo field, but only
ever stores snapshots whose own undo fields are null; the embedding represents
such a snapshot as `Snapshot` (a `GameState` without the two undo fields),
avoiding a recursive structure. -/

inductive Seat where
  | T1P1 | T2P1 | T1P2 | T2P2
deriving DecidableEq, Repr

def SEATS : List Seat := [.T1P1, .T2P1, .T1P2, .T2P2]

/-- `getSeatOrder()` = `[...SEATS]`, as a `Fin 4`-indexed lookup. -/
def stdSeatOrder : Fin 4 → Seat := fun i => SEATS.getD i.val Seat.T1P1

inductive GamePhase where
  | preDeal | bidding | kitty | declareTrump | trick | score | gameOver
deriving DecidableEq, Repr

structure TrickPlay where
  seat : Seat
  card : Card
deriving DecidableEq, Repr

/-- `teamKey`: team index 0 is `'T1'`, team index 1 is `'T2'`; the
`capturedByTeam` record is embedded as a `Fin 2`-indexed family, so `teamKey`
is the identity on indices. -/
def teamKey (team : TeamId) : TeamId := team

inductive GameAction where
  | bid (amount : Nat)
  | pass
  | passPartner
deriving DecidableEq, Repr

/-- `GameState` fields other than `hand`. -/
structure GameBase where
  roomCode : String
  phase : GamePhase
  seatOrder : Fin 4 → Seat
  playerOrder : Fin 4 → String
  dealerSeat : Seat
  rookRankMode : RookRankMode
  bidding : BiddingState
  whoseTurnSeat : Seat
  whoseTurnPlayerId : String
  scores : Fin 2 → Int
  gameScore : Fin 2 → Int
  dealerIndex : PlayerId
  targetScore : Int
  winnerTeam : Option TeamId

/-- `HandState` fields other than the two undo fields. -/
structure HandCore where
  phase : GamePhase
  deckMode : DeckMode
  dealerSeat : Seat
  startedAt : Nat
  seed : Nat
  kittySize : Nat
  kitty : List Card
  kittyPickedUpCards : List Card
  pointsNoticeSent : Bool
  hands : Fin 4 → List Card
  trickCards : List TrickPlay
  trickLeadColor : Option TrumpColor
  bidder : Option PlayerId
  winningBid : Option Bid
  trump : Option TrumpColor
  kittyPickedUp : Bool
  capturedByTeam : Fin 2 → List Card
  lastTrickWinnerTeam : Option TeamId
  handPoints : Option (Fin 2 → Int)
  handScores : Option (Fin 2 → Int)
  biddersSet : Option Bool

/-- The game state stored in the undo slot (its own undo fields are always
null in the source, so they are omitted). -/
structure Snapshot extends GameBase where
  hand : HandCore

structure HandState extends HandCore where
  undoAvailableForPlayerId : Option String
  undoState : Option Snapshot

structure GameState extends GameBase where
  hand : HandState

/-- The snapshot `{...state, hand: {...state.hand, undo fields null}}` stored
by `playCard`. -/
def toSnapshot (s : GameState) : Snapshot :=
  { toGameBase := s.toGameBase, hand := s.hand.toHandCore }

/-- The state `{...undoState, hand: {...undoState.hand, undo fields null}}`
restored by `undoPlay`. -/
def ofSnapshot (u : Snapshot) : GameState :=
  { toGameBase := u.toGameBase
    hand := { toHandCore := u.hand, undoAvailableForPlayerId := none, undoState := none } }

/-- A game state with its undo slot cleared. -/
def clearUndo (s : GameState) : GameState :=
  { s with hand := { s.hand with undoAvailableForPlayerId := none, undoState := none } }

def KITTY_SIZE : Nat := 5

/-- `createSeed`: the 32-bit string hash of `"<roomCode>:<startedAt>"`
(`charCodeAt` equals the code point for the ASCII room codes used). -/
def createSeed (roomCode : String) (startedAt : Nat) : Nat :=
  let input := roomCode ++ ":" ++ toString startedAt
  input.toList.foldl (fun hash c => (hash * 31 + c.toNat) % 4294967296) 0

/-- One step of `mulberry32`, on 32-bit values represented as their unsigned
bit patterns (every JavaScript bitwise operation in the source coerces to 32
bits, so keeping the accumulator reduced mod 2^32 is faithful).  Returns the
32-bit output pattern (the source divides it by 2^32) and the next state. -/
def mulberry32Next (t : Nat) : Nat × Nat :=
  let t1 := (t + 0x6d2b79f5) % 4294967296
  let x1 := ((t1 ^^^ (t1 >>> 15)) * (t1 ||| 1)) % 4294967296
  let x2 := x1 ^^^ ((x1 + ((x1 ^^^ (x1 >>> 7)) * (x1 ||| 61)) % 4294967296) % 4294967296)
  ((x2 ^^^ (x2 >>> 14)) % 4294967296, t1)

/-- In-bounds array swap (the Fisher–Yates indices are in bounds by
construction). -/
def arraySwap (a : Array Card) (i j : Nat) : Array Card :=
  if h : i < a.size ∧ j < a.size then a.swap ⟨i, h.1⟩ ⟨j, h.2⟩ else a

/-- The Fisher–Yates loop of `shuffle`, from index `i` down to 1;
`Math.floor(rng() * (i + 1))` is exact on these magnitudes and equals
`pattern * (i + 1) / 2^32`. -/
def shuffleGo (a : Array Card) (t : Nat) : Nat → Array Card
  | 0 => a
  | i + 1 =>
    let r := mulberry32Next t
    let j := (r.1 * (i + 2)) / 4294967296
    shuffleGo (arraySwap a (i + 1) j) r.2 i

def shuffle (arr : List Card) (seed : Nat) : List Card :=
  (shuffleGo arr.toArray (seed % 4294967296) (arr.length - 1)).toList

structure DealResult where
  hands : Fin 4 → List Card
  kitty : List Card

/-- `deal`: round-robins `deck.length − kittySize` cards one at a time to the
4 hands (`hands[p]` receives positions `p, p+4, …`), the rest is the kitty. -/
def deal (deck : List Card) (kittySize : Nat) : Except String DealResult :=
  if kittySize = 0 then .error "kittySize must be > 0"
  else if deck.length ≤ kittySize then .error "deck too small for kitty"
  else
    let remaining := deck.length - kittySize
    if remaining % 4 ≠ 0 then
      .error ("deck minus kitty must be divisible by 4; got deck="
        ++ toString deck.length ++ " kitty=" ++ toString kittySize)
    else
      let perHand := remaining / 4
      .ok { hands := fun p => (List.range perHand).map (fun r => deck.getD (r * 4 + p.val) Card.rook)
            kitty := (deck.drop remaining).take kittySize }

def dealHands (roomCode : String) (startedAt : Nat) (deckMode : DeckMode) :
    Except String (DealResult × Nat) :=
  let seed := createSeed roomCode startedAt
  let deck := shuffle (buildDeck deckMode) seed
  (deal deck KITTY_SIZE).map (fun dr => (dr, seed))

/-- `playerOrder.indexOf(playerId)` over the 4 seats. -/
def findPlayerIndex (playerOrder : Fin 4 → String) (playerId : String) :
    Except String PlayerId :=
  match (List.finRange 4).find? (fun i => decide (playerOrder i = playerId)) with
  | some i => .ok i
  | none => .error "player not seated"

/-- `seatOrder.indexOf(seat)` over the 4 seats. -/
def seatIndexOf (order : Fin 4 → Seat) (seat : Seat) : Option (Fin 4) :=
  (List.finRange 4).find? (fun i => decide (order i = seat))

/-- `removeCards`: multiset subtraction keyed on `cardId`; the counts `Map` is
a function from ids to multiplicities. -/
def removeCards (hand : List Card) (cards : List Card) : Except String (List Card) :=
  let counts : String → Nat :=
    cards.foldl (fun m card => fun id => if id = cardId card then m id + 1 else m id)
      (fun _ => 0)
  let walk :=
    hand.foldl
      (fun (acc : (String → Nat) × List Card) card =>
        let id := cardId card
        if 0 < acc.1 id then
          ((fun j => if j = id then acc.1 j - 1 else acc.1 j), acc.2)
        else (acc.1, acc.2 ++ [card]))
      (counts, [])
  if cards.all (fun card => decide (walk.1 (cardId card) = 0)) then .ok walk.2
  else .error "discard cards missing from hand"

structure GameStartSettings where
  minBid : Option Nat := none
  step : Option Nat := none
  startingPlayer : Option PlayerId := none
  deckMode : Option DeckMode := none
  rookRankMode : Option RookRankMode := none
  targetScore : Option Int := none

/-- `buildPlayerOrder`: all four seats must be occupied. -/
def buildPlayerOrder (seats : Seat → Option String) : Except String (Fin 4 → String) :=
  match seats Seat.T1P1, seats Seat.T2P1, seats Seat.T1P2, seats Seat.T2P2 with
  | some a, some b, some c, some d => .ok (fun i => [a, b, c, d].getD i.val "")
  | _, _, _, _ => .error "seats not full"

/-- `createPreDealState` (the state stored by `startGame`). -/
def createPreDealState (roomCode : String) (seats : Seat → Option String)
    (settings : GameStartSettings) (now : Nat) : Except String GameState :=
  match buildPlayerOrder seats with
  | .error e => .error e
  | .ok playerOrder =>
    let dealerIndex := settings.startingPlayer.getD 0
    let dealerSeat := stdSeatOrder dealerIndex
    let bidding := createBiddingState (dealerIndex + 1)
      (settings.minBid.getD DEFAULT_MIN_BID) (settings.step.getD DEFAULT_BID_STEP)
    .ok { roomCode := roomCode
          phase := GamePhase.preDeal
          seatOrder := stdSeatOrder
          playerOrder := playerOrder
          dealerSeat := dealerSeat
          rookRankMode := settings.rookRankMode.getD RookRankMode.rookHigh
          bidding := bidding
          whoseTurnSeat := dealerSeat
          whoseTurnPlayerId := playerOrder dealerIndex
          scores := fun _ => 0
          gameScore := fun _ => 0
          dealerIndex := dealerIndex
          targetScore := settings.targetScore.getD 700
          winnerTeam := none
          hand := { phase := GamePhase.preDeal
                    deckMode := settings.deckMode.getD DeckMode.full
                    dealerSeat := dealerSeat
                    startedAt := now
                    seed := 0
                    kittySize := KITTY_SIZE
                    kitty := []
                    kittyPickedUpCards := []
                    pointsNoticeSent := false
                    hands := fun _ => []
                    trickCards := []
                    trickLeadColor := none
                    bidder := none
                    winningBid := none
                    trump := none
                    kittyPickedUp := false
                    capturedByTeam := fun _ => []
                    lastTrickWinnerTeam := none
                    handPoints := none
                    handScores := none
                    biddersSet := none
                    undoAvailableForPlayerId := none
                    undoState := none } }

/-- `dealCurrentHand`: reseed, build/shuffle/deal a fresh deck, reset all
hand-scoped fields, enter bidding (dealer's left bids first). -/
def dealCurrentHand (state : GameState) (rookRankMode : RookRankMode) (now : Nat) :
    Except String GameState :=
  match dealHands state.roomCode now state.hand.deckMode with
  | .error e => .error e
  | .ok (dr, seed) =>
    let bidding := createBiddingState (state.dealerIndex + 1)
      state.bidding.minBid state.bidding.step
    .ok { state with
          phase := GamePhase.bidding
          rookRankMode := rookRankMode
          bidding := bidding
          whoseTurnSeat := state.seatOrder bidding.currentPlayer
          whoseTurnPlayerId := state.playerOrder bidding.currentPlayer
          winnerTeam := none
          hand := { state.hand with
                    phase := GamePhase.bidding
                    startedAt := now
                    seed := seed
                    kitty := dr.kitty
                    kittyPickedUpCards := []
                    pointsNoticeSent := false
                    hands := dr.hands
                    trickCards := []
                    trickLeadColor := none
                    bidder := none
                    winningBid := none
                    trump := none
                    kittyPickedUp := false
                    capturedByTeam := fun _ => []
                    lastTrickWinnerTeam := none
                    handPoints := none
                    handScores := none
                    biddersSet := none
                    undoAvailableForPlayerId := none
                    undoState := none } }

/-- `reduceGameState`: dispatch a bidding action; on completion resolve the
winning bid (dealer fallback of `minBid` 100 on an all-pass auction) and
auto-place the kitty into the bidder's hand.  The source's `bidder` is
`winningBid?.player ?? null`; `winningBid` is always present here, and the
source's `bidder === null` guards are kept as `Option` matches. -/
def reduceGameState (state : GameState) (playerId : String) (action : GameAction) :
    Except String GameState :=
  if state.phase ≠ GamePhase.bidding then .error "bidding not active"
  else match findPlayerIndex state.playerOrder playerId with
  | .error e => .error e
  | .ok playerIndex =>
    if playerIndex ≠ state.bidding.currentPlayer then
      .error "Action must be taken by the current player."
    else
      let biddingAction := match action with
        | GameAction.bid amount => BiddingAction.bid playerIndex amount
        | GameAction.pass => BiddingAction.pass playerIndex
        | GameAction.passPartner => BiddingAction.passPartner playerIndex
      match applyBiddingAction state.bidding biddingAction with
      | .error e => .error e
      | .ok bidding =>
        if isBiddingComplete bidding then
          let fallbackDealerBid : Bid := { player := state.dealerIndex, amount := DEFAULT_MIN_BID }
          let winningBid := (getWinningBid bidding).getD fallbackDealerBid
          let resolvedBidding := match bidding.highBid with
            | some _ => bidding
            | none => { bidding with highBid := some fallbackDealerBid }
          let bidder : Option PlayerId := some winningBid.player
          let whoseTurnSeat := match bidder with
            | some b => state.seatOrder b
            | none => state.seatOrder bidding.currentPlayer
          let whoseTurnPlayerId := match bidder with
            | some b => state.playerOrder b
            | none => state.playerOrder bidding.currentPlayer
          let kittyPickedUpCards := match bidder with
            | none => []
            | some _ => state.hand.kitty
          let hands := match bidder with
            | none => state.hand.hands
            | some b => Function.update state.hand.hands b (state.hand.hands b ++ kittyPickedUpCards)
          .ok { state with
                phase := GamePhase.kitty
                bidding := resolvedBidding
                whoseTurnSeat := whoseTurnSeat
                whoseTurnPlayerId := whoseTurnPlayerId
                hand := { state.hand with
                          phase := GamePhase.kitty
                          winningBid := some winningBid
                          bidder := bidder
                          hands := hands
                          kitty := []
                          kittyPickedUpCards := kittyPickedUpCards
                          kittyPickedUp := bidder.isSome
                          undoAvailableForPlayerId := none
                          undoState := none } }
        else
          .ok { state with
                bidding := bidding
                whoseTurnSeat := state.seatOrder bidding.currentPlayer
                whoseTurnPlayerId := state.playerOrder bidding.currentPlayer }

def ensureBidder (state : GameState) (playerId : String) : Except String PlayerId :=
  match state.hand.bidder with
  | none => .error "no winning bid"
  | some b =>
    if state.playerOrder b ≠ playerId then .error "only the bidder may act"
    else .ok b

/-- `GameStore.rebindSeat` (the store lookup's `'game missing'` case is the
room-registry concern; these transition functions act on a present game). -/
def rebindSeatF (state : GameState) (seat : Seat) (newPlayerId : String) :
    Except String GameState :=
  match seatIndexOf state.seatOrder seat with
  | none => .error "invalid seat"
  | some index =>
    .ok { state with
          playerOrder := Function.update state.playerOrder index newPlayerId
          whoseTurnPlayerId :=
            if state.whoseTurnSeat = seat then newPlayerId else state.whoseTurnPlayerId }

/-- `GameStore.applyAction`: the `try/catch` around `reduceGameState` turns
thrown errors into error results; the embedding's `reduceGameState` already
returns them as values. -/
def applyActionF (state : GameState) (playerId : String) (action : GameAction) :
    Except String GameState :=
  reduceGameState state playerId action

/-- `GameStore.dealHand` (an invalid rook-rank-mode string is unrepresentable
in the embedding, so that check is omitted). -/
def dealHandF (state : GameState) (playerId : String) (rookRankMode : Option RookRankMode)
    (now : Nat) : Except String GameState :=
  if state.phase ≠ GamePhase.preDeal then .error "deal not ready"
  else if state.playerOrder state.dealerIndex ≠ playerId then .error "only dealer may deal"
  else dealCurrentHand state (rookRankMode.getD state.rookRankMode) now

/-- `GameStore.pickupKitty`. -/
def pickupKittyF (state : GameState) (playerId : String) : Except String GameState :=
  if state.phase ≠ GamePhase.kitty then .error "kitty not available"
  else match ensureBidder state playerId with
  | .error e => .error e
  | .ok bidderIndex =>
    if state.hand.kittyPickedUp then .error "kitty already picked up"
    else
      .ok { state with
            hand := { state.hand with
                      hands := Function.update state.hand.hands bidderIndex
                        (state.hand.hands bidderIndex ++ state.hand.kitty)
                      kitty := []
                      kittyPickedUpCards := state.hand.kitty
                      kittyPickedUp := true
                      undoAvailableForPlayerId := none
                      undoState := none } }

/-- `GameStore.discardKitty`; the `Bool` is the `pointsNotice` flag. -/
def discardKittyF (state : GameState) (playerId : String) (cards : List Card) :
    Except String (GameState × Bool) :=
  if state.phase ≠ GamePhase.kitty then .error "kitty not available"
  else match ensureBidder state playerId with
  | .error e => .error e
  | .ok bidderIndex =>
    if ¬ state.hand.kittyPickedUp then .error "kitty must be picked up first"
    else if cards.length ≠ state.hand.kittySize then .error "discard must match kitty size"
    else match removeCards (state.hand.hands bidderIndex) cards with
    | .error e => .error e
    | .ok nextHand =>
      let pointsInKitty := cards.any (fun card => isPointCard card)
      let pointsNotice := pointsInKitty && !state.hand.pointsNoticeSent
      .ok ({ state with
             phase := GamePhase.declareTrump
             whoseTurnSeat := state.seatOrder bidderIndex
             whoseTurnPlayerId := state.playerOrder bidderIndex
             hand := { state.hand with
                       phase := GamePhase.declareTrump
                       kitty := cards
                       kittyPickedUpCards := []
                       pointsNoticeSent := state.hand.pointsNoticeSent || pointsInKitty
                       hands := Function.update state.hand.hands bidderIndex nextHand
                       undoAvailableForPlayerId := none
                       undoState := none } }, pointsNotice)

/-- `GameStore.declareTrump`. -/
def declareTrumpF (state : GameState) (playerId : String) (trump : TrumpColor) :
    Except String GameState :=
  if state.phase ≠ GamePhase.declareTrump then .error "trump not ready"
  else match ensureBidder state playerId with
  | .error e => .error e
  | .ok bidderIndex =>
    .ok { state with
          phase := GamePhase.trick
          whoseTurnSeat := state.seatOrder bidderIndex
          whoseTurnPlayerId := state.playerOrder bidderIndex
          hand := { state.hand with
                    phase := GamePhase.trick
                    trickCards := []
                    trickLeadColor := none
                    trump := some trump
                    undoAvailableForPlayerId := none
                    undoState := none } }

/-- `GameStore.undoPlay`. -/
def undoPlayF (state : GameState) (playerId : String) : Except String GameState :=
  match state.hand.undoAvailableForPlayerId, state.hand.undoState with
  | some undoFor, some u =>
    if undoFor ≠ playerId then .error "only the last player may undo"
    else if state.phase ≠ GamePhase.trick then .error "undo window closed"
    else if state.hand.trickCards.length = 0 then .error "undo window closed"
    else .ok (ofSnapshot u)
  | _, _ => .error "no undo available"

/-! `GameStore.playCard`.  The method's local `const`s are embedded as the
small named definitions below (one per source constant, suffixed `F`);
`playCardNext` assembles the successor state and `playCardF` performs the
validations.  `seatOrder.length` is 4 (the fixed seat list); the scoring block
is computed unconditionally but only used under `handComplete`, exactly as the
source's conditional assignment. -/

/-- `trickNeedsReset`: the previous trick is still buffered in full. -/
def trickNeedsResetF (state : GameState) : Bool :=
  decide (4 ≤ state.hand.trickCards.length)

def effectiveTrickCardsF (state : GameState) : List TrickPlay :=
  if trickNeedsResetF state then [] else state.hand.trickCards

def effectiveTrickLeadColorF (state : GameState) : Option TrumpColor :=
  if trickNeedsResetF state then none else state.hand.trickLeadColor

/-- `nextLeadColor`: the effective lead, or the played card's color (the rook
leads as trump). -/
def nextLeadColorF (state : GameState) (trump : TrumpColor) (card : Card) :
    Option TrumpColor :=
  match effectiveTrickLeadColorF state with
  | some c => some c
  | none => match card with
    | Card.suit c _ => some c
    | Card.rook => some trump

def nextTrickCardsF (state : GameState) (playerIndex : PlayerId) (card : Card) :
    List TrickPlay :=
  effectiveTrickCardsF state ++ [{ seat := state.seatOrder playerIndex, card := card }]

def completedF (state : GameState) (playerIndex : PlayerId) (card : Card) : Bool :=
  decide (4 ≤ (nextTrickCardsF state playerIndex card).length)

def winnerCardIndexF (state : GameState) (playerIndex : PlayerId) (trump : TrumpColor)
    (card : Card) : Int :=
  determineTrickWinner ((nextTrickCardsF state playerIndex card).map (fun e => e.card))
    (nextLeadColorF state trump card) trump state.rookRankMode

/-- `winnerSeat`: `nextTrickCards[winnerCardIndex]?.seat ?? seatOrder[playerIndex]`. -/
def winnerSeatF (state : GameState) (playerIndex : PlayerId) (trump : TrumpColor)
    (card : Card) : Seat :=
  match (if winnerCardIndexF state playerIndex trump card < 0 then none
         else (nextTrickCardsF state playerIndex card).get?
           (winnerCardIndexF state playerIndex trump card).toNat) with
  | some entry => entry.seat
  | none => state.seatOrder playerIndex

def resolvedIndexF (state : GameState) (playerIndex : PlayerId) (trump : TrumpColor)
    (card : Card) : PlayerId :=
  (seatIndexOf state.seatOrder (winnerSeatF state playerIndex trump card)).getD playerIndex

def winningTeamF (state : GameState) (playerIndex : PlayerId) (trump : TrumpColor)
    (card : Card) : TeamId :=
  teamKey (teamOf (resolvedIndexF state playerIndex trump card))

def capturedByTeamF (state : GameState) (playerIndex : PlayerId) (trump : TrumpColor)
    (card : Card) : Fin 2 → List Card :=
  if completedF state playerIndex card then
    Function.update state.hand.capturedByTeam (winningTeamF state playerIndex trump card)
      (state.hand.capturedByTeam (winningTeamF state playerIndex trump card)
        ++ (nextTrickCardsF state playerIndex card).map (fun e => e.card))
  else state.hand.capturedByTeam

def lastTrickWinnerTeamF (state : GameState) (playerIndex : PlayerId) (trump : TrumpColor)
    (card : Card) : Option TeamId :=
  if completedF state playerIndex card then some (winningTeamF state playerIndex trump card)
  else state.hand.lastTrickWinnerTeam

def handsAfterF (state : GameState) (playerIndex : PlayerId) (newHand : List Card) :
    Fin 4 → List Card :=
  Function.update state.hand.hands playerIndex newHand

def handCompleteF (state : GameState) (playerIndex : PlayerId) (card : Card)
    (newHand : List Card) : Bool :=
  completedF state playerIndex card
    && (List.finRange 4).all (fun p => (handsAfterF state playerIndex newHand p).isEmpty)

def bidAmountF (state : GameState) : Nat :=
  (state.hand.winningBid.map (fun wb => wb.amount)).getD 0

def biddingTeamF (state : GameState) : TeamId :=
  match state.hand.winningBid with
  | some wb => teamOf wb.player
  | none => 0

def resolvedLastTrickTeamF (state : GameState) (playerIndex : PlayerId)
    (trump : TrumpColor) (card : Card) : TeamId :=
  (lastTrickWinnerTeamF state playerIndex trump card).getD (teamKey (biddingTeamF state))

def scoredF (state : GameState) (playerIndex : PlayerId) (trump : TrumpColor)
    (card : Card) : HandScore :=
  scoreHand (capturedByTeamF state playerIndex trump card)
    (resolvedLastTrickTeamF state playerIndex trump card) state.hand.kitty
    (biddingTeamF state) (bidAmountF state)

def scoresAfterF (state : GameState) (playerIndex : PlayerId) (trump : TrumpColor)
    (card : Card) (newHand : List Card) : Fin 2 → Int :=
  if handCompleteF state playerIndex card newHand then
    (fun t => state.scores t + (scoredF state playerIndex trump card).scores t)
  else state.scores

def winnerTeamNewF (state : GameState) (playerIndex : PlayerId) (trump : TrumpColor)
    (card : Card) (newHand : List Card) : Option TeamId :=
  if state.targetScore ≤ scoresAfterF state playerIndex trump card newHand 0 then some 0
  else if state.targetScore ≤ scoresAfterF state playerIndex trump card newHand 1 then some 1
  else none

def phaseAfterF (state : GameState) (playerIndex : PlayerId) (trump : TrumpColor)
    (card : Card) (newHand : List Card) : GamePhase :=
  if handCompleteF state playerIndex card newHand then
    (match winnerTeamNewF state playerIndex trump card newHand with
      | none => GamePhase.score
      | some _ => GamePhase.gameOver)
  else state.phase

def undoAllowedF (state : GameState) (playerIndex : PlayerId) (trump : TrumpColor)
    (card : Card) (newHand : List Card) : Bool :=
  (!completedF state playerIndex card)
    && decide (0 < (nextTrickCardsF state playerIndex card).length)
    && decide (phaseAfterF state playerIndex trump card newHand = GamePhase.trick)

/-- The successor state built by a successful `playCard`. -/
def playCardNext (state : GameState) (playerId : String) (playerIndex : PlayerId)
    (trump : TrumpColor) (card : Card) (newHand : List Card) : GameState :=
  { state with
    phase := phaseAfterF state playerIndex trump card newHand
    whoseTurnSeat :=
      if completedF state playerIndex card then
        state.seatOrder (resolvedIndexF state playerIndex trump card)
      else state.seatOrder (playerIndex + 1)
    whoseTurnPlayerId :=
      if completedF state playerIndex card then
        state.playerOrder (resolvedIndexF state playerIndex trump card)
      else state.playerOrder (playerIndex + 1)
    scores := scoresAfterF state playerIndex trump card newHand
    gameScore := scoresAfterF state playerIndex trump card newHand
    winnerTeam := winnerTeamNewF state playerIndex trump card newHand
    hand := { state.hand with
              phase := if handCompleteF state playerIndex card newHand then
                  phaseAfterF state playerIndex trump card newHand
                else state.hand.phase
              hands := handsAfterF state playerIndex newHand
              trickCards := nextTrickCardsF state playerIndex card
              trickLeadColor := nextLeadColorF state trump card
              capturedByTeam := capturedByTeamF state playerIndex trump card
              lastTrickWinnerTeam := lastTrickWinnerTeamF state playerIndex trump card
              handPoints := if handCompleteF state playerIndex card newHand then
                  some (scoredF state playerIndex trump card).points
                else state.hand.handPoints
              handScores := if handCompleteF state playerIndex card newHand then
                  some (scoredF state playerIndex trump card).scores
                else state.hand.handScores
              biddersSet := if handCompleteF state playerIndex card newHand then
                  some (decide ((scoredF state playerIndex trump card).points (biddingTeamF state)
                    < (bidAmountF state : Int)))
                else state.hand.biddersSet
              undoAvailableForPlayerId :=
                if undoAllowedF state playerIndex trump card newHand then some playerId
                else none
              undoState :=
                if undoAllowedF state playerIndex trump card newHand then
                  some (toSnapshot state)
                else none } }

/-- `GameStore.playCard`: validations, then the successor state. -/
def playCardF (state : GameState) (playerId : String) (card : Card) :
    Except String GameState :=
  if state.phase ≠ GamePhase.trick then .error "trick not active"
  else if state.whoseTurnPlayerId ≠ playerId then .error "not your turn"
  else match findPlayerIndex state.playerOrder playerId with
  | .error e => .error e
  | .ok playerIndex =>
    match state.hand.trump with
    | none => .error "trump not set"
    | some trump =>
      if ¬ (getLegalPlays (state.hand.hands playerIndex) (effectiveTrickLeadColorF state)
          trump state.rookRankMode).contains (cardId card) then
        .error "illegal play"
      else match removeCards (state.hand.hands playerIndex) [card] with
      | .error e => .error e
      | .ok newHand => .ok (playCardNext state playerId playerIndex trump card newHand)

/-- `GameStore.nextHand`: rotate the dealer, reset to a fresh pre-deal hand. -/
def nextHandF (state : GameState) (now : Nat) : Except String GameState :=
  if state.phase = GamePhase.gameOver then .error "game complete"
  else if state.phase ≠ GamePhase.score then .error "hand not complete"
  else
    let dealerIndex := state.dealerIndex + 1
    let dealerSeat := state.seatOrder dealerIndex
    let bidding := createBiddingState (dealerIndex + 1) state.bidding.minBid state.bidding.step
    .ok { state with
          phase := GamePhase.preDeal
          dealerSeat := dealerSeat
          bidding := bidding
          whoseTurnSeat := dealerSeat
          whoseTurnPlayerId := state.playerOrder dealerIndex
          dealerIndex := dealerIndex
          winnerTeam := none
          hand := { phase := GamePhase.preDeal
                    deckMode := state.hand.deckMode
                    dealerSeat := dealerSeat
                    startedAt := now
                    seed := 0
                    kittySize := KITTY_SIZE
                    kitty := []
                    kittyPickedUpCards := []
                    pointsNoticeSent := false
                    hands := fun _ => []
                    trickCards := []
                    trickLeadColor := none
                    bidder := none
                    winningBid := none
                    trump := none
                    kittyPickedUp := false
                    capturedByTeam := fun _ => []
                    lastTrickWinnerTeam := none
                    handPoints := none
                    handScores := none
                    biddersSet := none
                    undoAvailableForPlayerId := none
                    undoState := none } }

/-- The public `GameStore` action surface (minus `startGame`, which creates
the room entry rather than acting on one). -/
inductive StoreAction where
  | applyAction (playerId : String) (action : GameAction)
  | dealHand (playerId : String) (mode : Option RookRankMode) (now : Nat)
  | pickupKitty (playerId : String)
  | discardKitty (playerId : String) (cards : List Card)
  | declareTrump (playerId : String) (trump : TrumpColor)
  | playCard (playerId : String) (card : Card)
  | undoPlay (playerId : String)
  | nextHand (now : Nat)
  | rebindSeat (seat : Seat) (newPlayerId : String)

def runAction (state : GameState) : StoreAction → Except String GameState
  | .applyAction pid act => applyActionF state pid act
  | .dealHand pid mode now => dealHandF state pid mode now
  | .pickupKitty pid => pickupKittyF state pid
  | .discardKitty pid cards => (discardKittyF state pid cards).map (fun r => r.1)
  | .declareTrump pid trump => declareTrumpF state pid trump
  | .playCard pid card => playCardF state pid card
  | .undoPlay pid => undoPlayF state pid
  | .nextHand now => nextHandF state now
  | .rebindSeat seat pid => rebindSeatF state seat pid

/-- The store's single mutable cell: `game.state = nextState` runs only on the
success path of each method. -/
def storeAfter (state : GameState) (a : StoreAction) : GameState :=
  match runAction state a with
  | .ok next => next
  | .error _ => state

/-- States reachable from a start state through the public action API. -/
inductive GReachable : GameState → GameState → Prop where
  | refl (s : GameState) : GReachable s s
  | step {s t : GameState} (a : StoreAction) : GReachable s t → GReachable s (storeAfter t a)

/-- Orchestrator invariant: in the kitty phase the kitty has already been
picked up, and any stored undo snapshot was taken in the trick phase. -/
def Inv (s : GameState) : Prop :=
  (s.phase = GamePhase.kitty → s.hand.kittyPickedUp = true)
  ∧ (∀ u, s.hand.undoState = some u → u.phase = GamePhase.trick)

/-! ## Concrete states used by witnesses -/

def emptyHand : HandState :=
  { phase := GamePhase.preDeal, deckMode := DeckMode.full, dealerSeat := Seat.T1P1
    startedAt := 0, seed := 0, kittySize := KITTY_SIZE, kitty := []
    kittyPickedUpCards := [], pointsNoticeSent := false, hands := fun _ => []
    trickCards := [], trickLeadColor := none, bidder := none, winningBid := none
    trump := none, kittyPickedUp := false, capturedByTeam := fun _ => []
    lastTrickWinnerTeam := none, handPoints := none, handScores := none
    biddersSet := none, undoAvailableForPlayerId := none, undoState := none }

def emptyGame : GameState :=
  { roomCode := "", phase := GamePhase.preDeal, seatOrder := stdSeatOrder
    playerOrder := fun _ => "", dealerSeat := Seat.T1P1
    rookRankMode := RookRankMode.rookHigh, bidding := createBiddingState 0 100 5
    whoseTurnSeat := Seat.T1P1, whoseTurnPlayerId := "", scores := fun _ => 0
    gameScore := fun _ => 0, dealerIndex := 0, targetScore := 700, winnerTeam := none
    hand := emptyHand }

def demoOrder : Fin 4 → String := fun i => ["alice", "bob", "cara", "dave"].getD i.val ""

def demoSeats : Seat → Option String := fun s =>
  match s with
  | Seat.T1P1 => some "alice"
  | Seat.T2P1 => some "bob"
  | Seat.T1P2 => some "cara"
  | Seat.T2P2 => some "dave"

def demoStart : GameState :=
  (createPreDealState "ROOM" demoSeats {} 0).toOption.getD emptyGame

/-- A trick-phase state: red trump, red already led, alice to play holding the
rook and a red 5. -/
def demoTrickState : GameState :=
  { emptyGame with
    phase := GamePhase.trick
    playerOrder := demoOrder
    whoseTurnSeat := Seat.T1P1
    whoseTurnPlayerId := "alice"
    hand := { emptyHand with
              phase := GamePhase.trick
              trump := some Color.red
              trickCards := [{ seat := Seat.T2P2, card := Card.suit Color.red 9 }]
              trickLeadColor := some Color.red
              hands := fun i =>
                if i.val = 0 then [Card.rook, Card.suit Color.red 5]
                else [Card.suit Color.green 7] } }

def demoPlayAfter : GameState :=
  (playCardF demoTrickState "alice" (Card.suit Color.red 5)).toOption.getD emptyGame

def demoPlay2After : GameState :=
  (playCardF demoPlayAfter "bob" (Card.suit Color.green 7)).toOption.getD emptyGame

/-- A trick-phase state with three cards already played; dave's play completes
the trick. -/
def demoTrick3State : GameState :=
  { emptyGame with
    phase := GamePhase.trick
    playerOrder := demoOrder
    whoseTurnSeat := Seat.T2P2
    whoseTurnPlayerId := "dave"
    hand := { emptyHand with
              phase := GamePhase.trick
              trump := some Color.red
              trickCards := [{ seat := Seat.T1P1, card := Card.suit Color.red 9 },
                             { seat := Seat.T2P1, card := Card.suit Color.red 2 },
                             { seat := Seat.T1P2, card := Card.suit Color.red 3 }]
              trickLeadColor := some Color.red
              hands := fun i =>
                if i.val = 3 then [Card.suit Color.red 4, Card.suit Color.green 7]
                else [Card.suit Color.green 8] } }

def demoTrick3After : GameState :=
  (playCardF demoTrick3State "dave" (Card.suit Color.red 4)).toOption.getD emptyGame

/-- A bidding-phase state in which two players have already passed, no bid was
placed, and cara (the current player) is about to pass. -/
def demoBidState : GameState :=
  { emptyGame with
    phase := GamePhase.bidding
    playerOrder := demoOrder
    dealerIndex := 0
    bidding := { currentPlayer := 2, minBid := 100, step := 5, highBid := none
                 passed := fun i => decide (i.val < 2), passPartnerUsed := fun _ => false
                 history := [] }
    hand := { emptyHand with
              phase := GamePhase.bidding
              kitty := [Card.rook]
              hands := fun _ => [Card.suit Color.green 7] } }

def demoBidAfter : GameState :=
  (reduceGameState demoBidState "cara" GameAction.pass).toOption.getD emptyGame

/-! ## END OF DEFINITIONS -/

/-! ## Helper lemmas on points -/

theorem sumPoints_nil : sumPoints [] = 0 := rfl

theorem sumPoints_go (l : List Card) : ∀ a : Nat,
    l.foldl (fun total card => total + cardPoints card) a = a + sumPoints l := by
  induction l with
  | nil => intro a; simp [sumPoints]
  | cons c t ih =>
    intro a
    rw [List.foldl_cons, ih]
    have hc : sumPoints (c :: t) = cardPoints c + sumPoints t := by
      show List.foldl _ _ _ = _
      rw [List.foldl_cons, ih]
      omega
    omega

theorem sumPoints_cons (c : Card) (l : List Card) :
    sumPoints (c :: l) = cardPoints c + sumPoints l := by
  show List.foldl _ _ _ = _
  rw [List.foldl_cons, sumPoints_go]
  omega

theorem sumPoints_append (l₁ l₂ : List Card) :
    sumPoints (l₁ ++ l₂) = sumPoints l₁ + sumPoints l₂ := by
  induction l₁ with
  | nil => simp [sumPoints_nil]
  | cons c t ih => simp [sumPoints_cons, ih]; omega

theorem sumPoints_perm {l₁ l₂ : List Card} (h : l₁.Perm l₂) :
    sumPoints l₁ = sumPoints l₂ := by
  induction h with
  | nil => rfl
  | cons c _ ih => simp [sumPoints_cons, ih]
  | swap x y l => simp [sumPoints_cons]; omega
  | trans _ _ ih₁ ih₂ => omega

/-- The deck's point pool is 180 in both modes (ranks 2/3/4 carry no points). -/
theorem sumPoints_buildDeck (mode : DeckMode) : sumPoints (buildDeck mode) = 180 := by
  cases mode <;> decide

/-- Two team piles as a `Fin 2`-indexed family, mirroring `[t1, t2]`. -/
def teams2 (t1 t2 : List Card) : Fin 2 → List Card :=
  fun t => if t = 0 then t1 else t2

/-- Raw points formula of `scoreHand`: captured points, plus the 20-point
last-trick bonus and the kitty points for the last-trick team. -/
theorem scoreHand_points_formula (capturedByTeam : Fin 2 → List Card) (lastTrickTeam : Fin 2)
    (kittyCards : List Card) (biddingTeam : Fin 2) (bidAmount : Nat) (t : Fin 2) :
    (scoreHand capturedByTeam lastTrickTeam kittyCards biddingTeam bidAmount).points t
      = (sumPoints (capturedByTeam t) : Int)
        + (if t = lastTrickTeam then 20 + (sumPoints kittyCards : Int) else 0) := by
  by_cases ht : t = lastTrickTeam
  · subst ht
    simp [scoreHand, Function.update_same]
    omega
  · simp [scoreHand, Function.update_noteq ht, ht]

/-! ## Helper lemmas on `beats` and `winnerAux` -/

theorem beats_iff (a b : CardScore) :
    beats a b = true ↔
      (b.major < a.major ∨ (a.major = b.major ∧ b.tier < a.tier)
        ∨ (a.major = b.major ∧ a.tier = b.tier ∧ b.rank < a.rank)) := by
  simp only [beats, Bool.or_eq_true, Bool.and_eq_true, decide_eq_true_iff]
  tauto

theorem beats_false_iff (a b : CardScore) :
    beats a b = false ↔
      ¬(b.major < a.major ∨ (a.major = b.major ∧ b.tier < a.tier)
        ∨ (a.major = b.major ∧ a.tier = b.tier ∧ b.rank < a.rank)) := by
  rw [← beats_iff]
  cases h : beats a b <;> simp [h]

theorem beats_irrefl (a : CardScore) : beats a a = false := by
  rw [beats_false_iff]; omega

theorem beats_trans {a b c : CardScore} (h₁ : beats a b = true) (h₂ : beats b c = true) :
    beats a c = true := by
  rw [beats_iff] at h₁ h₂ ⊢
  omega

theorem beats_of_beats_of_not_beats {s bs g : CardScore}
    (h₁ : beats s bs = true) (h₂ : beats g bs = false) : beats s g = true := by
  rw [beats_iff] at h₁ ⊢
  rw [beats_false_iff] at h₂
  omega

theorem winnerAux_spec (leadColor : Option TrumpColor) (trumpColor : TrumpColor)
    (rookRankMode : RookRankMode) (rest : List Card) :
    ∀ (i bestIndex : Nat) (bestScore : CardScore) (g : Nat → CardScore),
      (∀ k, k < rest.length →
        g (i + k) = scoreCard (rest.getD k Card.rook) leadColor trumpColor rookRankMode) →
      bestIndex < i →
      bestScore = g bestIndex →
      (∀ j, j < i → beats (g j) bestScore = false) →
      (∀ j, j < bestIndex → beats bestScore (g j) = true) →
      (winnerAux leadColor trumpColor rookRankMode rest i bestIndex bestScore).1 < i + rest.length
      ∧ (winnerAux leadColor trumpColor rookRankMode rest i bestIndex bestScore).2
          = g (winnerAux leadColor trumpColor rookRankMode rest i bestIndex bestScore).1
      ∧ (∀ j, j < i + rest.length →
          beats (g j) (winnerAux leadColor trumpColor rookRankMode rest i bestIndex bestScore).2 = false)
      ∧ (∀ j, j < (winnerAux leadColor trumpColor rookRankMode rest i bestIndex bestScore).1 →
          beats (winnerAux leadColor trumpColor rookRankMode rest i bestIndex bestScore).2 (g j) = true) := by
  induction rest with
  | nil =>
    intro i bestIndex bestScore g _ hlt hbs hmax hstrict
    refine ⟨by simpa [winnerAux] using hlt, by simpa [winnerAux] using hbs, ?_, ?_⟩
    · intro j hj
      simp only [winnerAux]
      exact hmax j (by simpa using hj)
    · intro j hj
      simp only [winnerAux] at hj ⊢
      exact hstrict j hj
  | cons c cs ih =>
    intro i bestIndex bestScore g hg hlt hbs hmax hstrict
    have hgc : g i = scoreCard c leadColor trumpColor rookRankMode := by
      have := hg 0 (by simp)
      simpa using this
    have hgtail : ∀ k, k < cs.length →
        g (i + 1 + k) = scoreCard (cs.getD k Card.rook) leadColor trumpColor rookRankMode := by
      intro k hk
      have := hg (k + 1) (by simp; omega)
      have harith : i + (k + 1) = i + 1 + k := by omega
      rw [harith] at this
      simpa using this
    simp only [winnerAux]
    cases hb : beats (scoreCard c leadColor trumpColor rookRankMode) bestScore with
    | true =>
      rw [if_pos rfl]
      have := ih (i + 1) i (scoreCard c leadColor trumpColor rookRankMode) g hgtail
        (by omega) hgc.symm
        (by
          intro j hj
          rcases Nat.lt_succ_iff_lt_or_eq.mp hj with hj' | hj'
          · cases hbj : beats (g j) (scoreCard c leadColor trumpColor rookRankMode) with
            | false => rfl
            | true =>
              have hcontr := beats_trans hbj hb
              rw [hmax j hj'] at hcontr
              exact absurd hcontr (by simp)
          · subst hj'
            rw [hgc]
            exact beats_irrefl _
        )
        (by
          intro j hj
          exact beats_of_beats_of_not_beats hb (hmax j hj)
        )
      have hlen : i + 1 + cs.length = i + (cs.length + 1) := by omega
      rw [hlen] at this
      exact ⟨by simpa using this.1, this.2.1, by simpa using this.2.2.1, this.2.2.2⟩
    | false =>
      rw [if_neg Bool.false_ne_true]
      have := ih (i + 1) bestIndex bestScore g hgtail (by omega) hbs
        (by
          intro j hj
          rcases Nat.lt_succ_iff_lt_or_eq.mp hj with hj' | hj'
          · exact hmax j hj'
          · subst hj'
            rw [hgc]
            exact hb
        )
        hstrict
      have hlen : i + 1 + cs.length = i + (cs.length + 1) := by omega
      rw [hlen] at this
      exact ⟨by simpa using this.1, this.2.1, by simpa using this.2.2.1, this.2.2.2⟩

/-! ## Helper lemmas on bidding -/

theorem complete_false_count {s : BiddingState} (h : isBiddingComplete s = false) :
    countPassed s.passed ≤ 2 := by
  simp only [isBiddingComplete, decide_eq_false_iff_not] at h
  omega

theorem complete_true_count {s : BiddingState} (h : isBiddingComplete s = true) :
    3 ≤ countPassed s.passed := by
  simpa only [isBiddingComplete, decide_eq_true_iff] using h

theorem countPassed_update_le :
    ∀ (f : Fin 4 → Bool) (p : Fin 4),
      countPassed (Function.update f p true) ≤ countPassed f + 1 := by decide

theorem nextActive_not_passed :
    ∀ (f : Fin 4 → Bool) (p : Fin 4),
      countPassed f ≤ 2 → f p = false → f (nextActivePlayer f p) = false := by decide

theorem nextActivePlayer_meets_spec :
    ∀ (f : Fin 4 → Bool) (p : Fin 4), nextActivePlayerSpec f p (nextActivePlayer f p) := by
  simp only [nextActivePlayerSpec, nextActivePlayer]
  decide

theorem applyBiddingAction_ok_facts {s s' : BiddingState} {a : BiddingAction}
    (h : applyBiddingAction s a = Except.ok s') :
    isBiddingComplete s = false
    ∧ (s'.passed = s.passed ∨ s'.passed = Function.update s.passed a.player true) := by
  simp only [applyBiddingAction] at h
  split at h
  · simp at h
  next hcom =>
    split at h
    · simp at h
    next hcur =>
      split at h
      · simp at h
      next hpassed =>
        refine ⟨by simpa using hcom, ?_⟩
        cases a with
        | bid p amt =>
          simp only [applyBid] at h
          split at h
          · simp at h
          split at h
          · simp at h
          split at h
          · simp at h
          split at h
          · simp at h
          injection h with h
          subst h
          left; rfl
        | pass p =>
          injection h with h
          subst h
          right; rfl
        | passPartner p =>
          simp only [applyPassPartner] at h
          split at h
          · simp at h
          split at h
          · simp at h
          split at h
          · simp at h
          injection h with h
          subst h
          left; rfl

theorem applyBid_ok_shape {s s' : BiddingState} {p : PlayerId} {a : Nat}
    (h : applyBiddingAction s (.bid p a) = Except.ok s') :
    isBiddingComplete s = false ∧ p = s.currentPlayer ∧ s.passed p = false
    ∧ s.minBid ≤ a ∧ a ≤ DEFAULT_MAX_BID ∧ a % s.step = 0
    ∧ (∀ hb, s.highBid = some hb → hb.amount < a)
    ∧ s' = { s with highBid := some ⟨p, a⟩,
                    currentPlayer := nextActivePlayer s.passed p,
                    history := s.history ++ [.bid p a] } := by
  simp only [applyBiddingAction, BiddingAction.player] at h
  split at h
  · simp at h
  next hcom =>
    split at h
    · simp at h
    next hcur =>
      split at h
      · simp at h
      next hpassed =>
        simp only [applyBid] at h
        split at h
        · simp at h
        next hmin =>
          split at h
          · simp at h
          next hmax =>
            split at h
            · simp at h
            next hstep =>
              split at h
              · simp at h
              next hhigh =>
                injection h with h
                refine ⟨by simpa using hcom, by simpa using hcur, by simpa using hpassed,
                  by omega, by omega, by simpa using hstep, ?_, h.symm⟩
                intro hb hhb
                rw [hhb] at hhigh
                simp only [Option.any_some, decide_eq_true_iff] at hhigh
                omega

theorem applyBid_ok_of_conditions {s : BiddingState} {p : PlayerId} {a : Nat}
    (hcom : isBiddingComplete s = false) (hcur : p = s.currentPlayer)
    (hpass : s.passed p = false) (hmin : s.minBid ≤ a) (hmax : a ≤ DEFAULT_MAX_BID)
    (hstep : a % s.step = 0) (hhigh : ∀ hb, s.highBid = some hb → hb.amount < a) :
    applyBiddingAction s (.bid p a)
      = Except.ok { s with highBid := some ⟨p, a⟩,
                           currentPlayer := nextActivePlayer s.passed p,
                           history := s.history ++ [.bid p a] } := by
  have hany : s.highBid.any (fun hb => decide (a ≤ hb.amount)) = false := by
    cases hh : s.highBid with
    | none => rfl
    | some hb =>
      have := hhigh hb hh
      simp only [Option.any_some, decide_eq_false_iff_not]
      omega
  simp only [applyBiddingAction, BiddingAction.player, applyBid, hcom, hany,
    Bool.false_eq_true, if_false, hcur]
  rw [if_neg (by simp), if_neg (by simp [hcur ▸ hpass]), if_neg (by omega),
    if_neg (by omega), if_neg (by omega)]

theorem pass_ok_of_conditions (s : BiddingState) (h1 : isBiddingComplete s = false)
    (h2 : s.passed s.currentPlayer = false) :
    (applyBiddingAction s (.pass s.currentPlayer)).isOk = true := by
  simp only [applyBiddingAction, BiddingAction.player, h1, Bool.false_eq_true, if_false]
  rw [if_neg (by simp), if_neg (by simp [h2])]
  rfl

/-! ## Helper lemmas on the orchestrator -/

theorem ofSnapshot_toSnapshot (s : GameState) : ofSnapshot (toSnapshot s) = clearUndo s := rfl

theorem toSnapshot_phase (s : GameState) : (toSnapshot s).phase = s.phase := rfl

theorem applyPass_ok_highBid {s b' : BiddingState} {p : PlayerId}
    (h : applyBiddingAction s (.pass p) = Except.ok b') : b'.highBid = s.highBid := by
  simp only [applyBiddingAction, BiddingAction.player] at h
  split at h
  · simp at h
  split at h
  · simp at h
  split at h
  · simp at h
  injection h with h
  subst h
  rfl

theorem createPreDealState_ok_shape {roomCode : String} {seats : Seat → Option String}
    {settings : GameStartSettings} {now : Nat} {s0 : GameState}
    (h : createPreDealState roomCode seats settings now = Except.ok s0) :
    s0.phase = GamePhase.preDeal ∧ s0.hand.undoState = none := by
  simp only [createPreDealState] at h
  split at h
  · simp at h
  injection h with h
  subst h
  exact ⟨rfl, rfl⟩

theorem dealCurrentHand_ok_shape {s s' : GameState} {mode : RookRankMode} {now : Nat}
    (h : dealCurrentHand s mode now = Except.ok s') :
    s'.phase = GamePhase.bidding ∧ s'.hand.undoState = none := by
  simp only [dealCurrentHand] at h
  split at h
  · simp at h
  next dr seed heq =>
    injection h with h
    subst h
    exact ⟨rfl, rfl⟩

theorem dealHandF_ok_shape {s s' : GameState} {pid : String} {mode : Option RookRankMode}
    {now : Nat} (h : dealHandF s pid mode now = Except.ok s') :
    s'.phase = GamePhase.bidding ∧ s'.hand.undoState = none := by
  simp only [dealHandF] at h
  split at h
  · simp at h
  split at h
  · simp at h
  exact dealCurrentHand_ok_shape h

theorem pickupKittyF_ok_shape {s s' : GameState} {pid : String}
    (h : pickupKittyF s pid = Except.ok s') :
    s.phase = GamePhase.kitty ∧ s.hand.kittyPickedUp = false := by
  simp only [pickupKittyF] at h
  split at h
  · simp at h
  next hphase =>
    split at h
    · simp at h
    next b hb =>
      split at h
      · simp at h
      next hpicked =>
        refine ⟨by simpa using hphase, by simpa using hpicked⟩

theorem discardKittyF_ok_shape {s : GameState} {pid : String} {cards : List Card}
    {r : GameState × Bool} (h : discardKittyF s pid cards = Except.ok r) :
    r.1.phase = GamePhase.declareTrump ∧ r.1.hand.undoState = none := by
  simp only [discardKittyF] at h
  split at h
  · simp at h
  split at h
  · simp at h
  split at h
  · simp at h
  split at h
  · simp at h
  split at h
  · simp at h
  next nh hrm =>
    injection h with h
    subst h
    exact ⟨rfl, rfl⟩

theorem declareTrumpF_ok_shape {s s' : GameState} {pid : String} {trump : TrumpColor}
    (h : declareTrumpF s pid trump = Except.ok s') :
    s'.phase = GamePhase.trick ∧ s'.hand.undoState = none := by
  simp only [declareTrumpF] at h
  split at h
  · simp at h
  split at h
  · simp at h
  injection h with h
  subst h
  exact ⟨rfl, rfl⟩

theorem nextHandF_ok_shape {s s' : GameState} {now : Nat}
    (h : nextHandF s now = Except.ok s') :
    s'.phase = GamePhase.preDeal ∧ s'.hand.undoState = none := by
  simp only [nextHandF] at h
  split at h
  · simp at h
  split at h
  · simp at h
  injection h with h
  subst h
  exact ⟨rfl, rfl⟩

theorem rebindSeatF_ok_shape {s s' : GameState} {seat : Seat} {pid : String}
    (h : rebindSeatF s seat pid = Except.ok s') :
    s'.phase = s.phase ∧ s'.hand = s.hand := by
  simp only [rebindSeatF] at h
  split at h
  · simp at h
  injection h with h
  subst h
  exact ⟨rfl, rfl⟩

theorem undoPlayF_ok_shape {s s' : GameState} {pid : String}
    (h : undoPlayF s pid = Except.ok s') :
    ∃ u, s.hand.undoState = some u ∧ s' = ofSnapshot u := by
  simp only [undoPlayF] at h
  split at h
  next undoFor u heq1 heq2 =>
    split at h
    · simp at h
    split at h
    · simp at h
    split at h
    · simp at h
    injection h with h
    exact ⟨u, heq2, h.symm⟩
  next => simp at h

theorem nextTrickCardsF_length_pos (s : GameState) (pi : PlayerId) (card : Card) :
    0 < (nextTrickCardsF s pi card).length := by
  simp [nextTrickCardsF]

theorem playCardF_ok_shape {s s' : GameState} {pid : String} {card : Card}
    (h : playCardF s pid card = Except.ok s') :
    s.phase = GamePhase.trick
    ∧ ∃ pi trump newHand, s.hand.trump = some trump
        ∧ s' = playCardNext s pid pi trump card newHand := by
  simp only [playCardF] at h
  split at h
  · simp at h
  next hphase =>
    split at h
    · simp at h
    next hturn =>
      split at h
      · simp at h
      next pi hpi =>
        split at h
        · simp at h
        next trump htr =>
          split at h
          · simp at h
          next hlegal =>
            split at h
            · simp at h
            next newHand hrm =>
              injection h with h
              exact ⟨by simpa using hphase, pi, trump, newHand, htr, h.symm⟩

theorem playCardF_ok_fields {s s' : GameState} {pid : String} {card : Card}
    (h : playCardF s pid card = Except.ok s') :
    s.phase = GamePhase.trick
    ∧ 0 < s'.hand.trickCards.length
    ∧ (s'.hand.trickCards.length < 4 →
        s'.phase = GamePhase.trick
        ∧ s'.hand.undoAvailableForPlayerId = some pid
        ∧ s'.hand.undoState = some (toSnapshot s))
    ∧ (4 ≤ s'.hand.trickCards.length →
        s'.hand.undoAvailableForPlayerId = none ∧ s'.hand.undoState = none)
    ∧ (s'.phase = GamePhase.trick ∨ s'.phase = GamePhase.score
        ∨ s'.phase = GamePhase.gameOver) := by
  obtain ⟨hphase, pi, trump, newHand, htr, hs'⟩ := playCardF_ok_shape h
  subst hs'
  have htc : (playCardNext s pid pi trump card newHand).hand.trickCards
      = nextTrickCardsF s pi card := rfl
  refine ⟨hphase, ?_, ?_, ?_, ?_⟩
  · rw [htc]; exact nextTrickCardsF_length_pos s pi card
  · intro hlen
    rw [htc] at hlen
    have hcF : completedF s pi card = false := by
      simp only [completedF, decide_eq_false_iff_not]
      omega
    have hhcF : handCompleteF s pi card newHand = false := by
      simp [handCompleteF, hcF]
    have hph : phaseAfterF s pi trump card newHand = s.phase := by
      simp [phaseAfterF, hhcF]
    have hundo : undoAllowedF s pi trump card newHand = true := by
      simp only [undoAllowedF, hcF, hph, hphase, Bool.not_false, Bool.true_and]
      simp [nextTrickCardsF_length_pos]
    refine ⟨?_, ?_, ?_⟩
    · show phaseAfterF s pi trump card newHand = GamePhase.trick
      rw [hph, hphase]
    · show (if undoAllowedF s pi trump card newHand then some pid else none) = some pid
      rw [hundo]
      rfl
    · show (if undoAllowedF s pi trump card newHand then some (toSnapshot s) else none)
        = some (toSnapshot s)
      rw [hundo]
      rfl
  · intro hlen
    rw [htc] at hlen
    have hcT : completedF s pi card = true := by
      simp only [completedF, decide_eq_true_iff]
      omega
    have hundo : undoAllowedF s pi trump card newHand = false := by
      simp [undoAllowedF, hcT]
    constructor
    · show (if undoAllowedF s pi trump card newHand then some pid else none) = none
      rw [hundo]
      rfl
    · show (if undoAllowedF s pi trump card newHand then some (toSnapshot s) else none) = none
      rw [hundo]
      rfl
  · show phaseAfterF s pi trump card newHand = GamePhase.trick
      ∨ phaseAfterF s pi trump card newHand = GamePhase.score
      ∨ phaseAfterF s pi trump card newHand = GamePhase.gameOver
    unfold phaseAfterF
    split
    · split
      · right; left; rfl
      · right; right; rfl
    · left; exact hphase

theorem undoPlayF_of_fields {s' : GameState} {pid : String} {u : Snapshot}
    (hava : s'.hand.undoAvailableForPlayerId = some pid)
    (hund : s'.hand.undoState = some u)
    (hph : s'.phase = GamePhase.trick)
    (hlen : s'.hand.trickCards.length ≠ 0) :
    undoPlayF s' pid = Except.ok (ofSnapshot u) := by
  simp only [undoPlayF, hava, hund]
  rw [if_neg (by simp), if_neg (by simp [hph]), if_neg hlen]

theorem undoPlayF_no_slot {s' : GameState} {pid : String}
    (hava : s'.hand.undoAvailableForPlayerId = none) :
    undoPlayF s' pid = Except.error "no undo available" := by
  simp only [undoPlayF, hava]

theorem undoPlayF_wrong_player {s' : GameState} {pid q : String} {u : Snapshot}
    (hava : s'.hand.undoAvailableForPlayerId = some q)
    (hund : s'.hand.undoState = some u)
    (hne : q ≠ pid) :
    undoPlayF s' pid = Except.error "only the last player may undo" := by
  simp only [undoPlayF, hava, hund]
  rw [if_pos hne]

theorem pickupKittyF_not_kitty_phase {s : GameState} (pid : String)
    (hph : s.phase ≠ GamePhase.kitty) : (pickupKittyF s pid).isOk = false := by
  simp only [pickupKittyF]
  rw [if_pos hph]
  rfl

theorem pickupKittyF_already_picked {s : GameState} (pid : String)
    (hpk : s.hand.kittyPickedUp = true) : (pickupKittyF s pid).isOk = false := by
  simp only [pickupKittyF]
  split
  · rfl
  · cases he : ensureBidder s pid with
    | error e => simp only [he]; rfl
    | ok b =>
      simp only [he, hpk]
      rfl

theorem pickupKittyF_bidder_already_picked {s : GameState} {b : PlayerId}
    (hph : s.phase = GamePhase.kitty) (hpk : s.hand.kittyPickedUp = true)
    (hb : s.hand.bidder = some b) :
    pickupKittyF s (s.playerOrder b) = Except.error "kitty already picked up" := by
  have he : ensureBidder s (s.playerOrder b) = .ok b := by
    simp [ensureBidder, hb]
  simp only [pickupKittyF]
  rw [if_neg (by simp [hph])]
  simp only [he, hpk]
  rfl

theorem reduceGameState_ok_shape {s s' : GameState} {pid : String} {act : GameAction}
    (h : reduceGameState s pid act = Except.ok s') :
    (s'.phase = GamePhase.bidding ∧ s'.hand = s.hand)
    ∨ (s'.phase = GamePhase.kitty ∧ s'.hand.kittyPickedUp = true ∧ s'.hand.kitty = []
        ∧ s'.hand.undoState = none) := by
  simp only [reduceGameState] at h
  split at h
  · simp at h
  next hphase =>
    split at h
    · simp at h
    next pi hpi =>
      split at h
      · simp at h
      next hcur =>
        split at h
        · simp at h
        next bidding hbid =>
          split at h
          · injection h with h
            subst h
            right
            exact ⟨rfl, rfl, rfl, rfl⟩
          · injection h with h
            subst h
            left
            exact ⟨by simpa using hphase, rfl⟩

theorem runAction_inv (s : GameState) (a : StoreAction) (hinv : Inv s) :
    Inv (storeAfter s a) := by
  unfold storeAfter
  cases hr : runAction s a with
  | error e => exact hinv
  | ok s' =>
    cases a with
    | applyAction pid act =>
      simp only [runAction, applyActionF] at hr
      rcases reduceGameState_ok_shape hr with ⟨hph, hhand⟩ | ⟨hph, hpk, _, hus⟩
      · exact ⟨by rw [hph]; intro hk; exact absurd hk (by decide),
          by rw [hhand]; exact hinv.2⟩
      · exact ⟨fun _ => hpk, by rw [hus]; intro u hu; exact absurd hu (by simp)⟩
    | dealHand pid mode now =>
      simp only [runAction] at hr
      obtain ⟨hph, hus⟩ := dealHandF_ok_shape hr
      exact ⟨by rw [hph]; intro hk; exact absurd hk (by decide),
        by rw [hus]; intro u hu; exact absurd hu (by simp)⟩
    | pickupKitty pid =>
      simp only [runAction] at hr
      obtain ⟨hph, hpk⟩ := pickupKittyF_ok_shape hr
      rw [hinv.1 hph] at hpk
      exact absurd hpk (by simp)
    | discardKitty pid cards =>
      simp only [runAction] at hr
      cases hd : discardKittyF s pid cards with
      | error e => rw [hd] at hr; simp [Except.map] at hr
      | ok r =>
        rw [hd] at hr
        simp only [Except.map] at hr
        obtain ⟨hph, hus⟩ := discardKittyF_ok_shape hd
        injection hr with hr
        subst hr
        exact ⟨by rw [hph]; intro hk; exact absurd hk (by decide),
          by rw [hus]; intro u hu; exact absurd hu (by simp)⟩
    | declareTrump pid trump =>
      simp only [runAction] at hr
      obtain ⟨hph, hus⟩ := declareTrumpF_ok_shape hr
      exact ⟨by rw [hph]; intro hk; exact absurd hk (by decide),
        by rw [hus]; intro u hu; exact absurd hu (by simp)⟩
    | playCard pid card =>
      simp only [runAction] at hr
      obtain ⟨hph0, _, _, _, hph'⟩ := playCardF_ok_fields hr
      obtain ⟨_, pi, trump, newHand, _, hs'⟩ := playCardF_ok_shape hr
      constructor
      · intro hk
        rcases hph' with h | h | h <;> rw [hk] at h <;> exact absurd h (by decide)
      · intro u hu
        subst hs'
        show u.phase = GamePhase.trick
        by_cases hua : undoAllowedF s pi trump card newHand = true
        · have : (playCardNext s pid pi trump card newHand).hand.undoState
              = some (toSnapshot s) := by
            show (if undoAllowedF s pi trump card newHand then some (toSnapshot s)
              else none) = some (toSnapshot s)
            rw [hua]
            rfl
          rw [this] at hu
          injection hu with hu
          rw [← hu, toSnapshot_phase, hph0]
        · have hua' : undoAllowedF s pi trump card newHand = false := by
            cases hx : undoAllowedF s pi trump card newHand
            · rfl
            · exact absurd hx hua
          have : (playCardNext s pid pi trump card newHand).hand.undoState = none := by
            show (if undoAllowedF s pi trump card newHand then some (toSnapshot s)
              else none) = none
            rw [hua']
            rfl
          rw [this] at hu
          exact absurd hu (by simp)
    | undoPlay pid =>
      simp only [runAction] at hr
      obtain ⟨u, hu, hs'⟩ := undoPlayF_ok_shape hr
      have hut := hinv.2 u hu
      subst hs'
      constructor
      · intro hk
        have : (ofSnapshot u).phase = GamePhase.trick := hut
        rw [hk] at this
        exact absurd this (by decide)
      · intro v hv
        exact absurd hv (by simp [ofSnapshot])
    | nextHand now =>
      simp only [runAction] at hr
      obtain ⟨hph, hus⟩ := nextHandF_ok_shape hr
      exact ⟨by rw [hph]; intro hk; exact absurd hk (by decide),
        by rw [hus]; intro u hu; exact absurd hu (by simp)⟩
    | rebindSeat seat pid =>
      simp only [runAction] at hr
      obtain ⟨hph, hhand⟩ := rebindSeatF_ok_shape hr
      exact ⟨by rw [hph, hhand]; exact hinv.1, by rw [hhand]; exact hinv.2⟩

theorem greachable_inv {s0 s : GameState} (h0 : Inv s0) (h : GReachable s0 s) : Inv s := by
  induction h with
  | refl => exact h0
  | step a hreach ih => exact runAction_inv _ a ih

/-! ## Claim theorems -/

/-- **C1.** `scoreHand` raw points are each team's captured points plus a flat
20-point last-trick bonus and the kitty's points, both credited to the
last-trick team; the bidding team's hand score is exactly `-bidAmount` when its
raw points fall short of the bid and its raw points otherwise; the defending
team (the other team) always scores its raw points. -/
theorem C1_scoreHand_contract (capturedByTeam : Fin 2 → List Card) (lastTrickTeam : Fin 2)
    (kittyCards : List Card) (biddingTeam : Fin 2) (bidAmount : Nat) :
    (∀ t, (scoreHand capturedByTeam lastTrickTeam kittyCards biddingTeam bidAmount).points t
        = (sumPoints (capturedByTeam t) : Int)
          + (if t = lastTrickTeam then 20 + (sumPoints kittyCards : Int) else 0))
    ∧ (scoreHand capturedByTeam lastTrickTeam kittyCards biddingTeam bidAmount).scores biddingTeam
        = (if (scoreHand capturedByTeam lastTrickTeam kittyCards biddingTeam bidAmount).points biddingTeam
              < (bidAmount : Int)
           then -(bidAmount : Int)
           else (scoreHand capturedByTeam lastTrickTeam kittyCards biddingTeam bidAmount).points biddingTeam)
    ∧ (scoreHand capturedByTeam lastTrickTeam kittyCards biddingTeam bidAmount).scores (biddingTeam + 1)
        = (scoreHand capturedByTeam lastTrickTeam kittyCards biddingTeam bidAmount).points (biddingTeam + 1) := by
  refine ⟨?_, ?_, ?_⟩
  · intro t
    exact scoreHand_points_formula capturedByTeam lastTrickTeam kittyCards biddingTeam bidAmount t
  · by_cases hlt : (scoreHand capturedByTeam lastTrickTeam kittyCards biddingTeam bidAmount).points biddingTeam < (bidAmount : Int)
    · simp only [hlt, if_true]
      simp only [scoreHand] at hlt ⊢
      simp [hlt, Function.update_same]
    · simp only [hlt, if_false]
      simp only [scoreHand] at hlt ⊢
      simp [hlt]
  · have hne : biddingTeam + 1 ≠ biddingTeam := by
      fin_cases biddingTeam <;> decide
    simp only [scoreHand]
    by_cases hlt : (Function.update (fun t => (sumPoints (capturedByTeam t) : Int)) lastTrickTeam
        ((sumPoints (capturedByTeam lastTrickTeam) : Int) + 20 + (sumPoints kittyCards : Int)))
        biddingTeam < (bidAmount : Int)
    · simp [hlt, Function.update_noteq hne]
    · simp [hlt]

/-- **C2.** For any partition of the deck (either mode) into two captured piles
and a kitty, the two teams' raw points sum to exactly 200. -/
theorem C2_scoreHand_points_total (mode : DeckMode) (t1 t2 kitty : List Card)
    (lastTrickTeam biddingTeam : Fin 2) (bidAmount : Nat)
    (h : (t1 ++ t2 ++ kitty).Perm (buildDeck mode)) :
    (scoreHand (teams2 t1 t2) lastTrickTeam kitty biddingTeam bidAmount).points 0
      + (scoreHand (teams2 t1 t2) lastTrickTeam kitty biddingTeam bidAmount).points 1
      = 200 := by
  have hsum : sumPoints t1 + sumPoints t2 + sumPoints kitty = 180 := by
    have := sumPoints_perm h
    rw [sumPoints_buildDeck] at this
    simp [sumPoints_append] at this
    omega
  rw [scoreHand_points_formula (teams2 t1 t2) lastTrickTeam kitty biddingTeam bidAmount 0,
    scoreHand_points_formula (teams2 t1 t2) lastTrickTeam kitty biddingTeam bidAmount 1]
  have ht1 : teams2 t1 t2 0 = t1 := rfl
  have ht2 : teams2 t1 t2 1 = t2 := rfl
  rw [ht1, ht2]
  fin_cases lastTrickTeam <;> simp <;> omega

/-- **C4.** `determineTrickWinner` (a pure function of the played cards, lead
color, trump color and rook rank mode) returns the index of the card whose
(major, tier, rank) tuple is lexicographically maximal, ties resolved in favour
of the earliest play (no card strictly beats the winner, and the winner
strictly beats every earlier card); the rook beats every ordinary trump card
when rook-high and loses to every ordinary trump card when rook-low. -/
theorem C4_determineTrickWinner_spec :
    (∀ (cards : List Card) (leadColor : Option TrumpColor) (trumpColor : TrumpColor)
        (mode : RookRankMode), cards ≠ [] →
      0 ≤ determineTrickWinner cards leadColor trumpColor mode
      ∧ (determineTrickWinner cards leadColor trumpColor mode).toNat < cards.length
      ∧ (∀ j, j < cards.length →
          beats (trickScore cards leadColor trumpColor mode j)
            (trickScore cards leadColor trumpColor mode
              (determineTrickWinner cards leadColor trumpColor mode).toNat) = false)
      ∧ (∀ j, j < (determineTrickWinner cards leadColor trumpColor mode).toNat →
          beats (trickScore cards leadColor trumpColor mode
              (determineTrickWinner cards leadColor trumpColor mode).toNat)
            (trickScore cards leadColor trumpColor mode j) = true))
    ∧ (∀ (trumpColor : TrumpColor) (leadColor : Option TrumpColor) (r : Nat),
      determineTrickWinner [Card.rook, Card.suit trumpColor r] leadColor trumpColor
        RookRankMode.rookHigh = 0
      ∧ determineTrickWinner [Card.suit trumpColor r, Card.rook] leadColor trumpColor
        RookRankMode.rookHigh = 1
      ∧ determineTrickWinner [Card.rook, Card.suit trumpColor r] leadColor trumpColor
        RookRankMode.rookLow = 1
      ∧ determineTrickWinner [Card.suit trumpColor r, Card.rook] leadColor trumpColor
        RookRankMode.rookLow = 0) := by
  constructor
  · intro cards leadColor trumpColor mode hne
    match cards, hne with
    | c0 :: rest, _ =>
      have hspec := winnerAux_spec leadColor trumpColor mode rest 1 0
        (scoreCard c0 leadColor trumpColor mode)
        (trickScore (c0 :: rest) leadColor trumpColor mode)
        (by
          intro k hk
          simp only [trickScore]
          have : (1 + k) = k + 1 := by omega
          rw [this, List.getD_cons_succ])
        (by omega)
        (by simp [trickScore])
        (by
          intro j hj
          have hj0 : j = 0 := by omega
          subst hj0
          have h0 : trickScore (c0 :: rest) leadColor trumpColor mode 0
              = scoreCard c0 leadColor trumpColor mode := by simp [trickScore]
          rw [h0]
          exact beats_irrefl _)
        (by intro j hj; omega)
      have hwin : determineTrickWinner (c0 :: rest) leadColor trumpColor mode
          = ((winnerAux leadColor trumpColor mode rest 1 0
              (scoreCard c0 leadColor trumpColor mode)).1 : Int) := rfl
      have htN : (determineTrickWinner (c0 :: rest) leadColor trumpColor mode).toNat
          = (winnerAux leadColor trumpColor mode rest 1 0
              (scoreCard c0 leadColor trumpColor mode)).1 := by
        rw [hwin]; exact Int.toNat_natCast _
      refine ⟨by rw [hwin]; exact Int.natCast_nonneg _, ?_, ?_, ?_⟩
      · rw [htN]
        have := hspec.1
        simp only [List.length_cons]
        omega
      · intro j hj
        rw [htN, ← hspec.2.1]
        exact hspec.2.2.1 j (by simp at hj; omega)
      · intro j hj
        rw [htN] at hj ⊢
        rw [← hspec.2.1]
        exact hspec.2.2.2 j hj
  · intro trumpColor leadColor r
    refine ⟨?_, ?_, ?_, ?_⟩ <;>
      simp [determineTrickWinner, winnerAux, scoreCard, beats]

/-- Witness for C4: a two-card trick evaluated concretely. -/
theorem C4_determineTrickWinner_spec_witness :
    (([Card.rook, Card.suit Color.red 5] : List Card) ≠ [])
    ∧ 0 ≤ determineTrickWinner [Card.rook, Card.suit Color.red 5] (some Color.red)
        Color.red RookRankMode.rookHigh
    ∧ (determineTrickWinner [Card.rook, Card.suit Color.red 5] (some Color.red)
        Color.red RookRankMode.rookHigh).toNat
        < ([Card.rook, Card.suit Color.red 5] : List Card).length :=
  ⟨by decide,
   (C4_determineTrickWinner_spec.1 [Card.rook, Card.suit Color.red 5] (some Color.red)
      Color.red RookRankMode.rookHigh (by decide)).1,
   (C4_determineTrickWinner_spec.1 [Card.rook, Card.suit Color.red 5] (some Color.red)
      Color.red RookRankMode.rookHigh (by decide)).2.1⟩

/-- **C6 counterexample.** After three passes from a fresh auction (a legal
action sequence), bidding is complete but `getWinningBid` returns `none`, so
"getWinningBid returns a (non-null) bid if and only if bidding is complete" is
false as stated. -/
theorem C6_counterexample_allPass :
    threePassResult.map (fun s => (isBiddingComplete s, getWinningBid s))
      = Except.ok (true, none) := rfl

/-- **C6 (amended).** In every reachable bidding state, bidding is complete
exactly when 3 of the 4 players have passed; a successful bid never completes
bidding and the new current player may still pass afterwards; and
`getWinningBid` is non-null iff bidding is complete *and* a high bid exists
(after an all-pass completion it is null). -/
theorem C6_bidding_completion_amended :
    (∀ (sp : PlayerId) (mb st : Nat) (s : BiddingState),
      BReachable (createBiddingState sp mb st) s →
      (isBiddingComplete s = true ↔ countPassed s.passed = 3))
    ∧ (∀ (s : BiddingState) (p : PlayerId) (a : Nat) (s' : BiddingState),
      applyBiddingAction s (.bid p a) = .ok s' →
      isBiddingComplete s' = false
      ∧ (applyBiddingAction s' (.pass s'.currentPlayer)).isOk = true)
    ∧ (∀ s : BiddingState, getWinningBid s ≠ none ↔
        (isBiddingComplete s = true ∧ s.highBid ≠ none)) := by
  refine ⟨?_, ?_, ?_⟩
  · intro sp mb st s h
    have hinv : countPassed s.passed ≤ 3 := by
      induction h with
      | refl => show countPassed (fun _ => false) ≤ 3; decide
      | @step t u a hreach hok ih =>
        obtain ⟨hcomF, hcases⟩ := applyBiddingAction_ok_facts hok
        have hle2 := complete_false_count hcomF
        cases hcases with
        | inl heq => rw [heq]; omega
        | inr hupd =>
          rw [hupd]
          have := countPassed_update_le t.passed a.player
          omega
    constructor
    · intro hc
      have := complete_true_count hc
      omega
    · intro hc
      simp [isBiddingComplete, hc]
  · intro s p a s' h
    obtain ⟨hcom, hcur, hpass, _, _, _, _, hs'⟩ := applyBid_ok_shape h
    subst hs'
    have hcount := complete_false_count hcom
    have hcomF' : isBiddingComplete
        { s with highBid := some ⟨p, a⟩,
                 currentPlayer := nextActivePlayer s.passed p,
                 history := s.history ++ [.bid p a] } = false := hcom
    refine ⟨hcomF', ?_⟩
    exact pass_ok_of_conditions _ hcomF' (nextActive_not_passed s.passed p hcount hpass)
  · intro s
    unfold getWinningBid
    cases hc : isBiddingComplete s <;> simp [hc]

/-- Witness for C6 (amended): the completion criterion at a fresh auction, the
never-completes fact at a concrete opening bid, and the winning-bid criterion
at the resulting state. -/
theorem C6_bidding_completion_amended_witness :
    (isBiddingComplete (createBiddingState 0 100 5) = true ↔
      countPassed (createBiddingState 0 100 5).passed = 3)
    ∧ isBiddingComplete bid0After = false
    ∧ (getWinningBid bid0After ≠ none ↔
        (isBiddingComplete bid0After = true ∧ bid0After.highBid ≠ none)) :=
  ⟨C6_bidding_completion_amended.1 0 100 5 _ (BReachable.refl _),
   (C6_bidding_completion_amended.2.1 bid0State 0 100 bid0After rfl).1,
   C6_bidding_completion_amended.2.2 bid0After⟩

/-- **C7.** `applyBiddingAction` accepts a bid iff bidding is not complete, the
actor is the current player and has not passed, and the amount is ≥ minBid,
≤ 200, a multiple of step, and strictly above the current high bid (if any);
on success `highBid` becomes `{player, amount}` and the turn advances to the
next non-passed player in wrapping order (other guard state untouched).
Violated conditions produce an `Except.error` — the pure transition returns no
new state, so the bidding state is unchanged. -/
theorem C7_applyBid_spec (s : BiddingState) (p : PlayerId) (a : Nat) :
    ((applyBiddingAction s (.bid p a)).isOk = true ↔
      (isBiddingComplete s = false ∧ p = s.currentPlayer ∧ s.passed p = false
        ∧ s.minBid ≤ a ∧ a ≤ 200 ∧ a % s.step = 0
        ∧ (∀ hb, s.highBid = some hb → hb.amount < a)))
    ∧ (∀ s', applyBiddingAction s (.bid p a) = .ok s' →
        s'.highBid = some ⟨p, a⟩
        ∧ nextActivePlayerSpec s.passed p s'.currentPlayer
        ∧ s'.passed = s.passed ∧ s'.minBid = s.minBid ∧ s'.step = s.step
        ∧ s'.passPartnerUsed = s.passPartnerUsed) := by
  constructor
  · constructor
    · intro h
      cases hres : applyBiddingAction s (.bid p a) with
      | error e => rw [hres] at h; simp [Except.isOk, Except.toBool] at h
      | ok s' =>
        obtain ⟨h1, h2, h3, h4, h5, h6, h7, _⟩ := applyBid_ok_shape hres
        exact ⟨h1, h2, h3, h4, h5, h6, h7⟩
    · rintro ⟨h1, h2, h3, h4, h5, h6, h7⟩
      rw [applyBid_ok_of_conditions h1 h2 h3 h4 h5 h6 h7]
      rfl
  · intro s' h
    obtain ⟨_, _, _, _, _, _, _, hs'⟩ := applyBid_ok_shape h
    subst hs'
    exact ⟨rfl, nextActivePlayer_meets_spec s.passed p, rfl, rfl, rfl, rfl⟩

/-- Witness for C7: the opening bid of 100 in a fresh auction is accepted and
produces the expected high bid with the passed set untouched. -/
theorem C7_applyBid_spec_witness :
    (applyBiddingAction bid0State (BiddingAction.bid 0 100)).isOk = true
    ∧ bid0After.highBid = some ⟨0, 100⟩
    ∧ bid0After.passed = bid0State.passed :=
  ⟨(C7_applyBid_spec bid0State 0 100).1.mpr
      ⟨rfl, rfl, rfl, by decide, by decide, by decide,
        by intro hb h; simp [bid0State, createBiddingState] at h⟩,
   ((C7_applyBid_spec bid0State 0 100).2 bid0After rfl).1,
   ((C7_applyBid_spec bid0State 0 100).2 bid0After rfl).2.2.1⟩

/-- Witness for C2: the whole full deck captured by team 0, empty kitty. -/
theorem C2_scoreHand_points_total_witness :
    ((buildDeck DeckMode.full ++ [] ++ []).Perm (buildDeck DeckMode.full))
    ∧ (scoreHand (teams2 (buildDeck DeckMode.full) []) 0 [] 0 100).points 0
        + (scoreHand (teams2 (buildDeck DeckMode.full) []) 0 [] 0 100).points 1
        = 200 :=
  ⟨by simp, C2_scoreHand_points_total DeckMode.full (buildDeck DeckMode.full) [] [] 0 0 100 (by simp)⟩

/-- **C3 (code bug).** The claim says the Rook counts as a card of the trump
color for following-suit purposes, so with trump led and the Rook in hand the
Rook must be among the legal plays.  The code's `getLegalPlays` filters
lead-suit cards with `card.kind === 'suit'`, which excludes the Rook: with
hand `[ROOK, RED_5]`, lead red and trump red, only `RED_5` is legal and
`playCard` rejects the Rook with `'illegal play'` — contradicting the spec and
the repository's own rules document (`docs/RULES.md`: "Rook always counts as
trump" together with mandatory follow-suit). -/
theorem C3_rook_not_trump_for_following :
    getLegalPlays [Card.rook, Card.suit Color.red 5] (some Color.red) Color.red
      RookRankMode.rookHigh = ["RED_5"]
    ∧ "ROOK" ∉ getLegalPlays [Card.rook, Card.suit Color.red 5] (some Color.red) Color.red
      RookRankMode.rookHigh
    ∧ playCardF demoTrickState "alice" Card.rook = Except.error "illegal play" := by
  refine ⟨rfl, by decide, rfl⟩

/-- **C5.** When a pass completes bidding with no bid ever placed, the dealer
is awarded the automatic 100-point winning bid, the phase becomes `kitty`, and
the kitty cards are already in the dealer's hand with the kitty field emptied
and `kittyPickedUp` set. -/
theorem C5_allPass_dealer_fallback (s : GameState) (pid : String) (s' : GameState)
    (hok : reduceGameState s pid GameAction.pass = Except.ok s')
    (hnb : s.bidding.highBid = none)
    (hkitty : s'.phase = GamePhase.kitty) :
    s'.hand.winningBid = some { player := s.dealerIndex, amount := 100 }
    ∧ s'.hand.bidder = some s.dealerIndex
    ∧ s'.bidding.highBid = some { player := s.dealerIndex, amount := 100 }
    ∧ s'.hand.kitty = []
    ∧ s'.hand.kittyPickedUp = true
    ∧ s'.hand.kittyPickedUpCards = s.hand.kitty
    ∧ s'.hand.hands s.dealerIndex = s.hand.hands s.dealerIndex ++ s.hand.kitty := by
  simp only [reduceGameState] at hok
  split at hok
  · simp at hok
  next hphase =>
    split at hok
    · simp at hok
    next pi hpi =>
      split at hok
      · simp at hok
      next hcur =>
        split at hok
        · simp at hok
        next bidding hbid =>
          split at hok
          · next hcompl =>
            have hhb : bidding.highBid = none := by
              rw [applyPass_ok_highBid hbid, hnb]
            have hgw : getWinningBid bidding = none := by
              simp [getWinningBid, hhb]
            have hwb : (getWinningBid bidding).getD
                { player := s.dealerIndex, amount := DEFAULT_MIN_BID }
                = { player := s.dealerIndex, amount := DEFAULT_MIN_BID } := by
              rw [hgw]; exact rfl
            injection hok with hok
            subst hok
            refine ⟨?_, ?_, ?_, rfl, rfl, rfl, ?_⟩
            · rw [hwb]; rfl
            · rw [hwb]
            · rw [hhb]; rfl
            · rw [hwb]
              exact Function.update_same _ _ _
          · next hncompl =>
            injection hok with hok
            subst hok
            have : s.phase = GamePhase.bidding := by simpa using hphase
            rw [show ({ s with
                bidding := bidding
                whoseTurnSeat := s.seatOrder bidding.currentPlayer
                whoseTurnPlayerId := s.playerOrder bidding.currentPlayer
              } : GameState).phase = s.phase from rfl, this] at hkitty
            exact absurd hkitty (by decide)

/-- Witness for C5: cara's pass is the third pass of a bid-less auction; the
dealer (alice, index 0) receives the fallback contract and the kitty. -/
theorem C5_allPass_dealer_fallback_witness :
    reduceGameState demoBidState "cara" GameAction.pass = Except.ok demoBidAfter
    ∧ demoBidState.bidding.highBid = none
    ∧ demoBidAfter.phase = GamePhase.kitty
    ∧ demoBidAfter.hand.winningBid = some { player := demoBidState.dealerIndex, amount := 100 }
    ∧ demoBidAfter.hand.kittyPickedUp = true :=
  ⟨rfl, rfl, rfl,
   (C5_allPass_dealer_fallback demoBidState "cara" demoBidAfter rfl rfl rfl).1,
   (C5_allPass_dealer_fallback demoBidState "cara" demoBidAfter rfl rfl rfl).2.2.2.2.1⟩

/-- **C8.** Single-depth undo: after a play that does not complete a trick,
an immediate `undoPlay` by the same player restores the pre-play state exactly
(undo slot cleared); after a trick-completing play, `undoPlay` by that player
fails; and a subsequent play by another player invalidates the snapshot. -/
theorem C8_undo_single_depth :
    (∀ (s : GameState) (pid : String) (card : Card) (s' : GameState),
      playCardF s pid card = Except.ok s' → s'.hand.trickCards.length < 4 →
      undoPlayF s' pid = Except.ok (clearUndo s))
    ∧ (∀ (s : GameState) (pid : String) (card : Card) (s' : GameState),
      playCardF s pid card = Except.ok s' → 4 ≤ s'.hand.trickCards.length →
      undoPlayF s' pid = Except.error "no undo available")
    ∧ (∀ (s s' s'' : GameState) (p q : String) (c c' : Card),
      playCardF s p c = Except.ok s' → playCardF s' q c' = Except.ok s'' → p ≠ q →
      (undoPlayF s'' p).isOk = false) := by
  refine ⟨?_, ?_, ?_⟩
  · intro s pid card s' h hlen
    obtain ⟨_, hpos, hnc, _, _⟩ := playCardF_ok_fields h
    obtain ⟨hph, hava, hund⟩ := hnc hlen
    rw [undoPlayF_of_fields hava hund hph (by omega), ofSnapshot_toSnapshot]
  · intro s pid card s' h hlen
    obtain ⟨_, _, _, hc, _⟩ := playCardF_ok_fields h
    exact undoPlayF_no_slot (hc hlen).1
  · intro s s' s'' p q c c' h1 h2 hne
    obtain ⟨_, hpos, hnc, hc, _⟩ := playCardF_ok_fields h2
    by_cases hlen : s''.hand.trickCards.length < 4
    · obtain ⟨hph, hava, hund⟩ := hnc hlen
      rw [undoPlayF_wrong_player hava hund (fun hqp => hne hqp.symm)]
      rfl
    · rw [undoPlayF_no_slot (hc (by omega)).1]
      rfl

/-- Witness for C8: alice's opening play is undoable and restores the pre-play
state; dave's trick-completing play is not undoable; bob's follow-up play
invalidates alice's snapshot. -/
theorem C8_undo_single_depth_witness :
    playCardF demoTrickState "alice" (Card.suit Color.red 5) = Except.ok demoPlayAfter
    ∧ demoPlayAfter.hand.trickCards.length < 4
    ∧ undoPlayF demoPlayAfter "alice" = Except.ok (clearUndo demoTrickState)
    ∧ playCardF demoTrick3State "dave" (Card.suit Color.red 4) = Except.ok demoTrick3After
    ∧ 4 ≤ demoTrick3After.hand.trickCards.length
    ∧ undoPlayF demoTrick3After "dave" = Except.error "no undo available"
    ∧ (undoPlayF demoPlay2After "alice").isOk = false :=
  ⟨rfl, by decide,
   C8_undo_single_depth.1 demoTrickState "alice" (Card.suit Color.red 5) demoPlayAfter rfl
     (by decide),
   rfl, by decide,
   C8_undo_single_depth.2.1 demoTrick3State "dave" (Card.suit Color.red 4) demoTrick3After rfl
     (by decide),
   C8_undo_single_depth.2.2 demoTrickState demoPlayAfter demoPlay2After "alice" "bob"
     (Card.suit Color.red 5) (Card.suit Color.green 7) rfl rfl (by decide)⟩

/-- **C9.** Every public `GameStore` action is a total function returning an
explicit ok/error result (`Except`), and the store cell is replaced only on
success: whenever an action returns an error, the stored room state is
unchanged, and on success it holds exactly the returned state. -/
theorem C9_actions_error_leaves_store_unchanged (s : GameState) (a : StoreAction) :
    (∀ e, runAction s a = Except.error e → storeAfter s a = s)
    ∧ (∀ s', runAction s a = Except.ok s' → storeAfter s a = s') := by
  constructor
  · intro e h
    simp [storeAfter, h]
  · intro s' h
    simp [storeAfter, h]

/-- Witness for C9: `nextHand` in the pre-deal phase errors and leaves the
store untouched. -/
theorem C9_actions_error_leaves_store_unchanged_witness :
    runAction demoStart (StoreAction.nextHand 5) = Except.error "hand not complete"
    ∧ storeAfter demoStart (StoreAction.nextHand 5) = demoStart :=
  ⟨rfl,
   (C9_actions_error_leaves_store_unchanged demoStart (StoreAction.nextHand 5)).1
     "hand not complete" rfl⟩

/-- **C10.** The orchestrator's bid-completion path enters the kitty phase
only with the kitty already in the bidder's hand (`kittyPickedUp` set, kitty
emptied); any later `pickupKitty` fails — the bidder's with
`'kitty already picked up'` — and in any game driven from `startGame` through
the public action API, `pickupKitty` can never succeed. -/
theorem C10_pickupKitty_never_succeeds :
    (∀ (s : GameState) (pid : String) (act : GameAction) (s' : GameState),
      reduceGameState s pid act = Except.ok s' → s'.phase = GamePhase.kitty →
      s'.hand.kittyPickedUp = true ∧ s'.hand.kitty = [])
    ∧ (∀ (s : GameState) (pid : String),
      s.hand.kittyPickedUp = true → (pickupKittyF s pid).isOk = false)
    ∧ (∀ (s : GameState) (b : PlayerId),
      s.phase = GamePhase.kitty → s.hand.kittyPickedUp = true → s.hand.bidder = some b →
      pickupKittyF s (s.playerOrder b) = Except.error "kitty already picked up")
    ∧ (∀ (roomCode : String) (seats : Seat → Option String) (settings : GameStartSettings)
        (now : Nat) (s0 s : GameState) (pid : String),
      createPreDealState roomCode seats settings now = Except.ok s0 →
      GReachable s0 s → (pickupKittyF s pid).isOk = false) := by
  refine ⟨?_, ?_, ?_, ?_⟩
  · intro s pid act s' h hkitty
    rcases reduceGameState_ok_shape h with ⟨hb, _⟩ | ⟨_, h1, h2, _⟩
    · rw [hb] at hkitty
      exact absurd hkitty (by decide)
    · exact ⟨h1, h2⟩
  · intro s pid hpk
    exact pickupKittyF_already_picked pid hpk
  · intro s b hph hpk hb
    exact pickupKittyF_bidder_already_picked hph hpk hb
  · intro roomCode seats settings now s0 s pid hcreate hreach
    obtain ⟨h0p, h0u⟩ := createPreDealState_ok_shape hcreate
    have hinv : Inv s := greachable_inv
      ⟨by rw [h0p]; intro hk; exact absurd hk (by decide),
       by rw [h0u]; intro u hu; exact absurd hu (by simp)⟩ hreach
    by_cases hph : s.phase = GamePhase.kitty
    · exact pickupKittyF_already_picked pid (hinv.1 hph)
    · exact pickupKittyF_not_kitty_phase pid hph

/-- Witness for C10: the all-pass completion leaves the kitty picked up and
empty; alice's (the bidder's) standalone `pickupKitty` fails with `'kitty
already picked up'`, and `pickupKitty` fails at the freshly created game. -/
theorem C10_pickupKitty_never_succeeds_witness :
    demoBidAfter.hand.kittyPickedUp = true
    ∧ demoBidAfter.hand.kitty = []
    ∧ pickupKittyF demoBidAfter (demoBidAfter.playerOrder 0)
        = Except.error "kitty already picked up"
    ∧ (pickupKittyF demoStart "alice").isOk = false :=
  ⟨(C10_pickupKitty_never_succeeds.1 demoBidState "cara" GameAction.pass demoBidAfter
      rfl rfl).1,
   (C10_pickupKitty_never_succeeds.1 demoBidState "cara" GameAction.pass demoBidAfter
      rfl rfl).2,
   C10_pickupKitty_never_succeeds.2.2.1 demoBidAfter 0 rfl rfl rfl,
   C10_pickupKitty_never_succeeds.2.2.2 "ROOM" demoSeats {} 0 demoStart demoStart "alice"
     rfl (GReachable.refl demoStart)⟩

end Rook
